import Mathlib

/-!
# Serial link and control loops of the model semi-truck

A shallow embedding of the Raspberry Pi reader/writer
(`semi_catkin_ws/src/semi_truck/src/pi_comm_node.cpp`) and of the Teensy side
(`teensy_chibios/src/main/teensy_serial.cpp`, `motor_driver.cpp`,
`steer_servo.cpp`, `wheel_speed.cpp`).

Conventions.
* A `short` / `int16_t` value is an `Int` in `[-32768, 32767]`; every conversion
  of a wider value to 16 bits is written `toInt16` (reduction modulo `2^16`).
* Where the source uses bitwise operators on a `short`, the variable is held as
  its 16-bit pattern, a `Nat` below `65536`, and read back with `toInt16`.
* The UART receive buffer is a `List Byte`; reading removes bytes from the
  front. No byte arrives while a function runs, so a read on an empty buffer
  never delivers a byte: the functions return `none` there.
-/

namespace Daimtronics

/-! ## Machine integers -/

/-- One byte on the wire. -/
abbrev Byte := Fin 256

/-- Conversion of an integer to `int16_t`: two's complement wrap-around. -/
def toInt16 (n : Int) : Int := (n + 32768) % 65536 - 32768

/-- Conversion of a rational (a `float`/`double` value) to an integer type:
the fractional part is discarded (rounding toward zero). -/
def truncToInt (q : ℚ) : Int := if 0 ≤ q then ⌊q⌋ else ⌈q⌉

/-- The `i`-th byte in memory of a 16-bit value on a little-endian host (the
Raspberry Pi): byte 0 is the low byte, byte 1 the high byte. -/
def int16_byte (v : Int) (i : Nat) : Byte :=
  ⟨((v % 65536).toNat >>> (8 * i)) % 256, Nat.mod_lt _ (by decide)⟩

/-- The `i`-th byte in memory of a 32-bit value (`float`, `long`) on the
little-endian Teensy, the value given by its 32-bit pattern. -/
def int32_byte (v : Int) (i : Nat) : Byte :=
  ⟨((v % 4294967296).toNat >>> (8 * i)) % 256, Nat.mod_lt _ (by decide)⟩

/-- The byte `n mod 256` of an integer. -/
def byteOfInt (n : Int) : Byte := ⟨(n % 256).toNat % 256, Nat.mod_lt _ (by decide)⟩

/-! ## `pi_comm_node.cpp` -/

def SYNC_VALUE : Int := -32000
def SHORT_SIZE : Nat := 2
def SENSOR_DATA_SIZE_W_SYNC : Int := 14
def SENSOR_DATA_SIZE : Int := 12

/-- The message `semi_truck::Teensy_Sensors`, with the fields the node reads
and prints. -/
structure Teensy_Sensors where
  imu_angle : Int
  wheel_speed : Int
  right_TOF : Int
  left_TOF : Int
  rear_TOF : Int
  drive_mode_1 : Int
  drive_mode_2 : Int
deriving DecidableEq, Repr

/-- The message `semi_truck::Teensy_Actuators` (three `int16_t` fields). -/
structure Teensy_Actuators where
  motor_output : Int
  steer_output : Int
  fifth_output : Int
deriving DecidableEq, Repr

/-- Library call `serialGetchar`: the next buffered byte, removed from the
buffer; `none` when nothing is buffered, where no byte is delivered. (The
library then gives up after a timeout with the value -1, which is not a byte of
the stream; `pi_sync` does not take it for the sentinel and reads on, and the
main loop calls `read_from_teensy` only with 12 bytes buffered.) -/
def serialGetchar : List Byte → Option (Nat × List Byte)
  | [] => none
  | b :: rest => some (b.val, rest)

/-- Library call `serialDataAvail`: the number of buffered bytes. -/
def serialDataAvail (serial : List Byte) : Int := serial.length

/-- Library call `serialPutchar`: appends one byte to the outgoing stream. -/
def serialPutchar (serial : List Byte) (c : Byte) : List Byte := serial ++ [c]

/-- The `for` loop of `read_sensor_msg`: `n` iterations remain, `i` is the loop
counter and `sensor_msg` the 16-bit pattern accumulated so far.
`byte <<= 8*i` keeps the low 16 bits of the shifted byte. -/
def read_sensor_msg_loop : Nat → Nat → Nat → List Byte → Option (Nat × List Byte)
  | 0, _, sensor_msg, serial => some (sensor_msg, serial)
  | n + 1, i, sensor_msg, serial =>
    match serialGetchar serial with
    | none => none
    | some (byte, serial') =>
      let byte := (byte <<< (8 * i)) % 65536
      read_sensor_msg_loop n (i + 1) (sensor_msg ||| byte) serial'

/-- `short read_sensor_msg(int serial, char num_bytes)`. -/
def read_sensor_msg (serial : List Byte) (num_bytes : Nat) : Option (Int × List Byte) :=
  match read_sensor_msg_loop num_bytes 0 0 serial with
  | none => none
  | some (sensor_msg, serial') => some (toInt16 sensor_msg, serial')

/-- `void pi_sync()`: reads 2-byte values until one equals `SYNC_VALUE`.
`fuel` bounds the number of passes of the `while` loop. -/
def pi_sync : Nat → List Byte → Option (List Byte)
  | 0, _ => none
  | fuel + 1, serial =>
    match read_sensor_msg serial 2 with
    | none => none
    | some (data, serial') =>
      if data ≠ SYNC_VALUE then pi_sync fuel serial' else some serial'

/-- `void read_from_teensy(int serial, Teensy_Sensors &sensors)`. -/
def read_from_teensy (serial : List Byte) (sensors : Teensy_Sensors) :
    Option (Teensy_Sensors × List Byte) :=
  match read_sensor_msg serial SHORT_SIZE with
  | none => none
  | some (v, serial) =>
  let sensors := { sensors with imu_angle := v }
  match read_sensor_msg serial SHORT_SIZE with
  | none => none
  | some (v, serial) =>
  let sensors := { sensors with wheel_speed := v }
  match read_sensor_msg serial SHORT_SIZE with
  | none => none
  | some (v, serial) =>
  let sensors := { sensors with right_TOF := v }
  match read_sensor_msg serial SHORT_SIZE with
  | none => none
  | some (v, serial) =>
  let sensors := { sensors with left_TOF := v }
  match read_sensor_msg serial SHORT_SIZE with
  | none => none
  | some (v, serial) =>
  let sensors := { sensors with rear_TOF := v }
  match read_sensor_msg serial SHORT_SIZE with
  | none => none
  | some (v, serial) =>
  let sensors := { sensors with drive_mode_1 := v }
  some (sensors, serial)

/-- `void write_actuator_msg(int serial, short actuator_val, char num_bytes)`:
writes the first `num_bytes` bytes of the value as they lie in memory. -/
def write_actuator_msg (serial : List Byte) (actuator_val : Int) (num_bytes : Nat) :
    List Byte :=
  (List.range num_bytes).foldl (fun s i => serialPutchar s (int16_byte actuator_val i)) serial

/-- `void write_to_teensy(int serial, const Teensy_Actuators &actuators)`. -/
def write_to_teensy (serial : List Byte) (actuators : Teensy_Actuators) : List Byte :=
  let serial := write_actuator_msg serial SYNC_VALUE SHORT_SIZE
  let serial := write_actuator_msg serial actuators.motor_output SHORT_SIZE
  let serial := write_actuator_msg serial actuators.steer_output SHORT_SIZE
  write_actuator_msg serial actuators.fifth_output SHORT_SIZE

/-- What one pass of the main loop does with its collaborators, in order:
`sync avail` is a call of `pi_sync` made with `avail` bytes buffered,
`decode avail` a call of `read_from_teensy` made with `avail` bytes buffered,
`publish s` the call `publisher.publish(sensor_data)` with value `s`. -/
inductive Event where
  | sync (avail : Int)
  | decode (avail : Int)
  | publish (sensors : Teensy_Sensors)
deriving DecidableEq, Repr

/-- The variables of `main` that the reader cycle touches, and the record of
the calls it has made so far. -/
structure LoopState where
  serial : List Byte
  sensor_data : Teensy_Sensors
  waiting_bytes : Int
  trace : List Event
deriving DecidableEq, Repr

/-- The `for (int i = 0; i < waiting_bytes/SENSOR_DATA_SIZE_W_SYNC; i++)` loop
of `main`, entered with counter `i`. `waiting_bytes` is a `short` that the body
assigns again after `pi_sync`, so the bound is evaluated on the new value.
`sync_fuel` is handed to every `pi_sync`; the first argument bounds the number
of passes. -/
def main_for_loop (sync_fuel : Nat) : Nat → Int → LoopState → Option LoopState
  | 0, _, _ => none
  | fuel + 1, i, st =>
    if i < Int.tdiv st.waiting_bytes SENSOR_DATA_SIZE_W_SYNC then
      let trace := st.trace ++ [Event.sync (serialDataAvail st.serial)]
      match pi_sync sync_fuel st.serial with
      | none => none
      | some serial =>
        let waiting_bytes := toInt16 (serialDataAvail serial)
        if waiting_bytes ≥ SENSOR_DATA_SIZE then
          match read_from_teensy serial st.sensor_data with
          | none => none
          | some (sensor_data, serial') =>
            main_for_loop sync_fuel fuel (i + 1)
              ⟨serial', sensor_data, waiting_bytes,
                trace ++ [Event.decode (serialDataAvail serial)]⟩
        else
          main_for_loop sync_fuel fuel (i + 1) ⟨serial, st.sensor_data, waiting_bytes, trace⟩
    else some st

/-- One pass of `while (ros::ok())` in `main`, up to the publication: the
buffered byte count is read, the `for` loop runs, `sensor_data` is published.
(The relay pins, `ros::spinOnce` and the sleep that follow do not touch the
reader's state.) -/
def main_loop_iteration (fuel : Nat) (serial : List Byte) (sensor_data : Teensy_Sensors) :
    Option LoopState :=
  let waiting_bytes := toInt16 (serialDataAvail serial)
  match main_for_loop fuel fuel 0 ⟨serial, sensor_data, waiting_bytes, []⟩ with
  | none => none
  | some st => some { st with trace := st.trace ++ [Event.publish st.sensor_data] }

/-- The condition under which the `for` loop of `main`, at its head with counter
`i` and variables `st`, is safe to enter: the counter is not negative, and when
the loop test `i < waiting_bytes/SENSOR_DATA_SIZE_W_SYNC` passes (so that
`pi_sync` is called next) at least 14 bytes are buffered. -/
def SyncReady (i : Int) (st : LoopState) : Prop :=
  0 ≤ i ∧
  (i < Int.tdiv st.waiting_bytes SENSOR_DATA_SIZE_W_SYNC → 14 ≤ serialDataAvail st.serial)

/-! ## `teensy_serial.cpp` (Teensy side) -/

/-- The struct `actuator_data_t` of the Teensy firmware. -/
structure actuator_data_t where
  motor_output : Int
  steer_output : Int
  fifth_output : Int
deriving DecidableEq, Repr

/-- Library call `HWSERIAL.readBytes(buffer, length)`: moves `length` buffered
bytes into `buffer`; `none` when fewer are buffered (the call times out and
the buffer content is not determined). -/
def readBytes (serial : List Byte) (length : Nat) : Option (List Byte × List Byte) :=
  if length ≤ serial.length then some (serial.take length, serial.drop length) else none

/-- `void read_from_pi(actuator_data_t *actuators_ptr)`: three times, two bytes
are read into `data_buffer` and `(short) *data_buffer`, the value of the first
element of the buffer, is stored. -/
def read_from_pi (serial : List Byte) (actuators : actuator_data_t) :
    Option (actuator_data_t × List Byte) :=
  match readBytes serial 2 with
  | none => none
  | some (data_buffer, serial) =>
  let actuators := { actuators with motor_output := ((data_buffer.getD 0 0).val : Int) }
  match readBytes serial 2 with
  | none => none
  | some (data_buffer, serial) =>
  let actuators := { actuators with steer_output := ((data_buffer.getD 0 0).val : Int) }
  match readBytes serial 2 with
  | none => none
  | some (data_buffer, serial) =>
  let actuators := { actuators with fifth_output := ((data_buffer.getD 0 0).val : Int) }
  some (actuators, serial)

/-- The struct `sensor_data_t` of the Teensy firmware: `short wheel_speed;
float imu_angle; long right_URF; long left_URF;`. The `float` is held through
its 32-bit object representation, which is all that the byte copy of the
sender uses. -/
structure sensor_data_t where
  wheel_speed : Int
  imu_angle : Nat
  right_URF : Int
  left_URF : Int
deriving DecidableEq, Repr

/-- The struct `system_data_t` of the Teensy firmware. -/
structure system_data_t where
  updated : Bool
  drive_mode : Int
  sensors : sensor_data_t
  actuators : actuator_data_t
deriving DecidableEq, Repr

/-- The `sizeof(sensor_data_t)` bytes at `(char*)&sensors` on the Teensy
(32-bit ARM, little-endian): `wheel_speed` at offset 0, two padding bytes whose
content the language leaves open (`padding`), the `float` at offset 4 and the
two 4-byte `long`s at offsets 8 and 12; 16 bytes in all. -/
def sensor_data_bytes (padding : Byte × Byte) (sensors : sensor_data_t) : List Byte :=
  [int16_byte sensors.wheel_speed 0, int16_byte sensors.wheel_speed 1,
   padding.1, padding.2,
   int32_byte sensors.imu_angle 0, int32_byte sensors.imu_angle 1,
   int32_byte sensors.imu_angle 2, int32_byte sensors.imu_angle 3,
   int32_byte sensors.right_URF 0, int32_byte sensors.right_URF 1,
   int32_byte sensors.right_URF 2, int32_byte sensors.right_URF 3,
   int32_byte sensors.left_URF 0, int32_byte sensors.left_URF 1,
   int32_byte sensors.left_URF 2, int32_byte sensors.left_URF 3]

def READ_CYCLES : Nat := 2

/-- The loop `for (int i = 0; i < READ_CYCLES; i++)` of `teensy_serial_loop_fn`,
with `n` passes left: when bytes are buffered, `read_from_pi` is called. -/
def teensy_read_cycles : Nat → actuator_data_t → List Byte →
    Option (actuator_data_t × List Byte)
  | 0, actuators, rx => some (actuators, rx)
  | n + 1, actuators, rx =>
    if serialDataAvail rx > 0 then
      match read_from_pi rx actuators with
      | none => none
      | some (actuators, rx) => teensy_read_cycles n actuators rx
    else teensy_read_cycles n actuators rx

/-- `void teensy_serial_loop_fn(system_data_t *system_data)`. `tx` holds the
bytes written to `HWSERIAL` so far, `rx` the bytes buffered for reading,
`availableForWrite` is what `HWSERIAL.availableForWrite()` returns. The prints
to the USB console are left out. Returns the struct, `tx` and `rx` after the
call. -/
def teensy_serial_loop_fn (padding : Byte × Byte) (availableForWrite : Nat)
    (system_data : system_data_t) (tx rx : List Byte) :
    Option (system_data_t × List Byte × List Byte) :=
  let (system_data, tx) :=
    if system_data.updated then
      if availableForWrite ≠ 0 then
        ({ system_data with updated := false },
          tx ++ sensor_data_bytes padding system_data.sensors)
      else (system_data, tx)
    else (system_data, tx)
  match teensy_read_cycles READ_CYCLES system_data.actuators rx with
  | none => none
  | some (actuators, rx) => some ({ system_data with actuators := actuators }, tx, rx)

/-! ## `steer_servo.cpp` -/

def STRAIGHT : Int := 90

/-- Library class `Servo`, as far as the steering task uses it: `value` is the
angle last written, which `read()` returns, and `writes` lists the values of
the `write` calls made so far (the hardware writes). -/
structure Servo where
  value : Int
  writes : List Int
deriving DecidableEq, Repr

/-- Library call `Servo::write(value)`. -/
def Servo.write (servo : Servo) (value : Int) : Servo :=
  { value := value, writes := servo.writes ++ [value] }

/-- Library call `Servo::read()`. -/
def Servo.read (servo : Servo) : Int := servo.value

/-- `void steer_servo_loop_fn(int16_t steer_output)`, with the static
`steer_servo` passed in and returned. -/
def steer_servo_loop_fn (steer_output : Int) (steer_servo : Servo) : Servo :=
  if steer_output > 180 ∨ steer_output < 0 then
    steer_servo.write STRAIGHT
  else if steer_output ≠ steer_servo.read then
    steer_servo.write steer_output
  else steer_servo

/-! ## `wheel_speed.cpp` -/

def HIGH : Int := 1
def LOW : Int := 0

/-- `int16_t wheel_speed_loop_fn(short PhaseB_pin)`. `phaseB_val` is what
`digitalRead(PhaseB_pin)` returns and `time` what `micros()` returns; the
globals `prev_time` (an `unsigned long`, 32 bits) and `speed` (a `float`, taken
as an exact rational) are passed in. Returns the function's return value and
the two globals after the call. The difference `time - prev_time` wraps modulo
2^32; when it is 0 the division has no finite value in floating point, and the
rational quotient is 0 there. -/
def wheel_speed_loop_fn (phaseB_val : Int) (time prev_time : Nat) (speed : ℚ) :
    Int × Nat × ℚ :=
  let speed : ℚ :=
    if phaseB_val = HIGH then
      (let t_time : Nat := (time + 4294967296 - prev_time % 4294967296) % 4294967296;
       1 / ((t_time : ℚ) * (1 / 1000000)))
    else if phaseB_val = LOW then
      (let t_time : Nat := (time + 4294967296 - prev_time % 4294967296) % 4294967296;
       -(1 / ((t_time : ℚ) * (1 / 1000000))))
    else speed
  let prev_time := time
  (0, prev_time, speed)

/-! ## `motor_driver.cpp` -/

def WHEEL_SPEED_STOP : Int := 0
def MOTOR_STOP : Int := 90
def KP : Int := 1
/-- The literal `0.05f`, taken at its decimal value. -/
def KI : ℚ := 5 / 100
def SAT_ERROR : Int := 1000
def MAX_TIME_STEP : Int := 500
def WHEEL_SPEED_RANGE : Int := 1000
def MOTOR_RANGE : Int := 180

/-- `int16_t scale_output(int16_t motor_output)`. The product `0.9 * motor_output
+ 90` is a `double`, taken here as the exact rational; its conversion back to
`int16_t` discards the fractional part. -/
def scale_output (motor_output : Int) : Int :=
  let motor_output := if motor_output > 100 then 100 else motor_output
  let motor_output := if motor_output < -100 then -100 else motor_output
  let motor_output := truncToInt ((9 / 10 : ℚ) * (motor_output : ℚ) + 90)
  let motor_output := if motor_output < 35 then 35 else motor_output
  motor_output

/-- `int16_t stop_motor(int16_t wheel_speed, int16_t time_step)` with the static
`error_sum` passed in; returns `(motor_output, error_sum)` with the accumulator
as the call leaves it. Integer expressions are evaluated in `int` and wrapped
when stored in an `int16_t`; `MOTOR_RANGE / error_range` divides two integers;
expressions with `KI` are floating point, taken here as exact rationals. -/
def stop_motor (wheel_speed time_step : Int) (error_sum : Int) : Int × Int :=
  let error_range : Int :=
    truncToInt (KI * (SAT_ERROR : ℚ) + ((KP * WHEEL_SPEED_RANGE : Int) : ℚ))
  let error : Int := toInt16 (WHEEL_SPEED_STOP - wheel_speed)
  let error_sum : Int :=
    if error_sum < SAT_ERROR ∧ (time_step > 0 ∧ time_step < MAX_TIME_STEP) then
      let error_sum := toInt16 (error_sum + time_step * error)
      if error_sum > SAT_ERROR then SAT_ERROR else error_sum
    else error_sum
  let motor_output : Int :=
    truncToInt ((((KP * error : Int) : ℚ) + KI * (error_sum : ℚ))
      * ((Int.tdiv MOTOR_RANGE error_range : Int) : ℚ) + (MOTOR_STOP : ℚ))
  (motor_output, error_sum)

/-! ## Definitions that follow the specification -/

/-- The `SensorFrame` of the specification's data model: six signed 16-bit
fields in the order the specification lists them. -/
structure SensorFrame where
  wheel_speed : Int
  imu_angle : Int
  right_distance : Int
  left_distance : Int
  rear_distance : Int
  drive_mode : Int
deriving DecidableEq, Repr

/-- Every field of the frame is a signed 16-bit value. -/
def SensorFrame.InRange (f : SensorFrame) : Prop :=
  (-32768 ≤ f.wheel_speed ∧ f.wheel_speed ≤ 32767) ∧
  (-32768 ≤ f.imu_angle ∧ f.imu_angle ≤ 32767) ∧
  (-32768 ≤ f.right_distance ∧ f.right_distance ≤ 32767) ∧
  (-32768 ≤ f.left_distance ∧ f.left_distance ≤ 32767) ∧
  (-32768 ≤ f.rear_distance ∧ f.rear_distance ≤ 32767) ∧
  (-32768 ≤ f.drive_mode ∧ f.drive_mode ≤ 32767)

instance (f : SensorFrame) : Decidable f.InRange := by
  unfold SensorFrame.InRange; infer_instance

/-- Modelled from the spec: the sender of the 12-byte sensor frame is not among
the sources (the Teensy file writes an older struct), so the wire encoding is
the one of the specification's wire-format table: the six fields in the order
wheel_speed, imu_angle, right, left, rear, drive_mode, each as two bytes, low
byte first. -/
def encode_sensor_frame (f : SensorFrame) : List Byte :=
  [int16_byte f.wheel_speed 0, int16_byte f.wheel_speed 1,
   int16_byte f.imu_angle 0, int16_byte f.imu_angle 1,
   int16_byte f.right_distance 0, int16_byte f.right_distance 1,
   int16_byte f.left_distance 0, int16_byte f.left_distance 1,
   int16_byte f.rear_distance 0, int16_byte f.rear_distance 1,
   int16_byte f.drive_mode 0, int16_byte f.drive_mode 1]

/-- The message holds the frame `f`: each field of the message has the value of
the frame's field of the same name. -/
def Teensy_Sensors.Holds (s : Teensy_Sensors) (f : SensorFrame) : Prop :=
  s.wheel_speed = f.wheel_speed ∧ s.imu_angle = f.imu_angle ∧
  s.right_TOF = f.right_distance ∧ s.left_TOF = f.left_distance ∧
  s.rear_TOF = f.rear_distance ∧ s.drive_mode_1 = f.drive_mode

instance (s : Teensy_Sensors) (f : SensorFrame) : Decidable (s.Holds f) := by
  unfold Teensy_Sensors.Holds; infer_instance

/-- The output of `stop_motor` as the specification words it:
`(Kp*error + Ki*error_sum) * (motor_range / error_range) + motor_stop_bias`
with `error = 0 - wheel_speed`, `error_sum` the accumulator after the update,
and `motor_range / error_range` the ratio 180/1050, converted to an integer. -/
def stop_motor_spec_output (wheel_speed error_sum : Int) : Int :=
  truncToInt ((((1 : ℚ) * ((0 - wheel_speed : Int) : ℚ)) + (5 / 100 : ℚ) * (error_sum : ℚ))
    * ((180 : ℚ) / (1050 : ℚ)) + 90)

/-! ## Repeated calls of `stop_motor` -/

/-- The accumulator after `n` calls `stop_motor(wheel_speed, time_step)` with
the same arguments, started from `error_sum`. -/
def error_sum_after (wheel_speed time_step : Int) : Nat → Int → Int
  | 0, error_sum => error_sum
  | n + 1, error_sum =>
    error_sum_after wheel_speed time_step n (stop_motor wheel_speed time_step error_sum).2

/-- The accumulator after the calls `stop_motor(wheel_speed, time_step)` for the
argument pairs of `calls`, in order, started from `error_sum`. -/
def error_sum_after_calls : List (Int × Int) → Int → Int
  | [], error_sum => error_sum
  | (wheel_speed, time_step) :: calls, error_sum =>
    error_sum_after_calls calls (stop_motor wheel_speed time_step error_sum).2

/-! ## Machine integers: lemmas -/

theorem toInt16_of_inRange (v : Int) (h1 : -32768 ≤ v) (h2 : v ≤ 32767) : toInt16 v = v := by
  unfold toInt16; omega

theorem toInt16_range (n : Int) : -32768 ≤ toInt16 n ∧ toInt16 n ≤ 32767 := by
  unfold toInt16; omega

theorem int16_byte_pair (v : Int) (h1 : -32768 ≤ v) (h2 : v ≤ 32767) :
    toInt16 (((int16_byte v 0).val : Int) + 256 * ((int16_byte v 1).val : Int)) = v := by
  simp only [int16_byte, Nat.mul_zero, Nat.shiftRight_zero, Nat.mul_one,
    Nat.shiftRight_eq_div_pow]
  have hp : ((v % 65536).toNat : Int) = v % 65536 := Int.toNat_of_nonneg (by omega)
  generalize (v % 65536).toNat = p at hp
  unfold toInt16
  push_cast
  omega

theorem truncToInt_intCast (n : Int) : truncToInt (n : ℚ) = n := by
  unfold truncToInt; split <;> simp

theorem truncToInt_div_nonneg (n : Int) (d : Nat) (hn : 0 ≤ n) :
    truncToInt ((n : ℚ) / (d : ℚ)) = n / (d : Int) := by
  unfold truncToInt
  have h : (0 : ℚ) ≤ (n : ℚ) / (d : ℚ) := by positivity
  rw [if_pos h, Rat.floor_intCast_div_natCast]

/-! ## The reader: lemmas -/

theorem read_sensor_msg_two (b0 b1 : Byte) (rest : List Byte) :
    read_sensor_msg (b0 :: b1 :: rest) 2
      = some (toInt16 ((b0.val : Int) + 256 * (b1.val : Int)), rest) := by
  have h0 : b0.val < 2 ^ 8 := b0.isLt
  have h1 : b1.val < 256 := b1.isLt
  have hor : b0.val ||| (b1.val <<< 8) % 65536 = b0.val + 256 * b1.val := by
    rw [Nat.shiftLeft_eq, Nat.mod_eq_of_lt (by omega), Nat.lor_comm, Nat.mul_comm,
      ← Nat.mul_add_lt_is_or h0]
    omega
  simp [read_sensor_msg, read_sensor_msg_loop, serialGetchar, Nat.mod_eq_of_lt
    (show b0.val < 65536 by omega), hor]

theorem pair_eq_sync_iff (b0 b1 : Byte) :
    toInt16 ((b0.val : Int) + 256 * (b1.val : Int)) = SYNC_VALUE ↔ b0 = 0x00 ∧ b1 = 0x83 := by
  have h0 := b0.isLt
  have h1 := b1.isLt
  unfold toInt16 SYNC_VALUE
  have e0 : (0x00 : Byte).val = 0 := rfl
  have e1 : (0x83 : Byte).val = 131 := rfl
  rw [Fin.ext_iff, Fin.ext_iff, e0, e1]
  omega

theorem pi_sync_at_sentinel (fuel : Nat) (rest : List Byte) :
    pi_sync (fuel + 1) (0x00 :: 0x83 :: rest) = some rest := by
  have h : toInt16 (((0x00 : Byte).val : Int) + 256 * ((0x83 : Byte).val : Int)) = SYNC_VALUE :=
    (pair_eq_sync_iff 0x00 0x83).2 ⟨rfl, rfl⟩
  simp only [pi_sync, read_sensor_msg_two, h, ne_eq, not_true_eq_false, if_false]

theorem pi_sync_skip_pair (fuel : Nat) (b0 b1 : Byte) (rest : List Byte)
    (h : ¬ (b0 = 0x00 ∧ b1 = 0x83)) :
    pi_sync (fuel + 1) (b0 :: b1 :: rest) = pi_sync fuel rest := by
  have h2 : toInt16 ((b0.val : Int) + 256 * (b1.val : Int)) ≠ SYNC_VALUE :=
    fun e => h ((pair_eq_sync_iff b0 b1).1 e)
  simp only [pi_sync, read_sensor_msg_two, ne_eq, h2, not_false_eq_true, if_true]

theorem pi_sync_fuel_irrelevant (n : Nat) : ∀ (serial : List Byte) (fuel1 fuel2 : Nat),
    serial.length < 2 * n → n ≤ fuel1 → n ≤ fuel2 →
    pi_sync fuel1 serial = pi_sync fuel2 serial := by
  induction n with
  | zero => intro serial fuel1 fuel2 hlen; omega
  | succ n ih =>
    intro serial fuel1 fuel2 hlen h1 h2
    obtain ⟨a, rfl⟩ : ∃ a, fuel1 = a + 1 := ⟨fuel1 - 1, by omega⟩
    obtain ⟨b, rfl⟩ : ∃ b, fuel2 = b + 1 := ⟨fuel2 - 1, by omega⟩
    match serial, hlen with
    | [], _ => simp [pi_sync, read_sensor_msg, read_sensor_msg_loop, serialGetchar]
    | [_], _ => simp [pi_sync, read_sensor_msg, read_sensor_msg_loop, serialGetchar]
    | b0 :: b1 :: rest, hlen =>
      simp only [pi_sync, read_sensor_msg_two]
      have hrest : rest.length < 2 * n := by simp at hlen; omega
      rw [ih rest a b hrest (by omega) (by omega)]

theorem pi_sync_skips_noise (n : Nat) : ∀ (noise rest : List Byte) (fuel : Nat),
    noise.length = 2 * n →
    (∀ j, ¬ (noise[2 * j]? = some 0x00 ∧ noise[2 * j + 1]? = some 0x83)) →
    n < fuel →
    pi_sync fuel (noise ++ 0x00 :: 0x83 :: rest) = some rest := by
  induction n with
  | zero =>
    intro noise rest fuel hlen _ hfuel
    have hnil : noise = [] := List.length_eq_zero.mp (by omega)
    obtain ⟨k, rfl⟩ : ∃ k, fuel = k + 1 := ⟨fuel - 1, by omega⟩
    subst hnil
    exact pi_sync_at_sentinel k rest
  | succ n ih =>
    intro noise rest fuel hlen hnoise hfuel
    obtain ⟨k, rfl⟩ : ∃ k, fuel = k + 1 := ⟨fuel - 1, by omega⟩
    match noise, hlen, hnoise with
    | b0 :: b1 :: noise', hlen, hnoise =>
      have hpair : ¬ (b0 = 0x00 ∧ b1 = 0x83) := by
        intro hb
        exact hnoise 0 (by simp [hb.1, hb.2])
      have hrest : ∀ j, ¬ (noise'[2 * j]? = some 0x00 ∧ noise'[2 * j + 1]? = some 0x83) := by
        intro j hj
        apply hnoise (j + 1)
        have e1 : 2 * (j + 1) = 2 * j + 1 + 1 := by ring
        rw [e1]
        simpa using hj
      have hlen' : noise'.length = 2 * n := by simp at hlen; omega
      rw [List.cons_append, List.cons_append, pi_sync_skip_pair _ _ _ _ hpair]
      exact ih noise' rest k hlen' hrest (by omega)

theorem read_from_teensy_twelve (b0 b1 b2 b3 b4 b5 b6 b7 b8 b9 b10 b11 : Byte)
    (rest : List Byte) (sensors : Teensy_Sensors) :
    read_from_teensy (b0 :: b1 :: b2 :: b3 :: b4 :: b5 :: b6 :: b7 :: b8 :: b9 :: b10 :: b11 :: rest)
        sensors
      = some ({ imu_angle := toInt16 ((b0.val : Int) + 256 * (b1.val : Int)),
                wheel_speed := toInt16 ((b2.val : Int) + 256 * (b3.val : Int)),
                right_TOF := toInt16 ((b4.val : Int) + 256 * (b5.val : Int)),
                left_TOF := toInt16 ((b6.val : Int) + 256 * (b7.val : Int)),
                rear_TOF := toInt16 ((b8.val : Int) + 256 * (b9.val : Int)),
                drive_mode_1 := toInt16 ((b10.val : Int) + 256 * (b11.val : Int)),
                drive_mode_2 := sensors.drive_mode_2 }, rest) := by
  simp only [read_from_teensy, SHORT_SIZE, read_sensor_msg_two]

theorem read_from_teensy_encoded (f : SensorFrame) (hf : f.InRange) (rest : List Byte)
    (sensors : Teensy_Sensors) :
    read_from_teensy (encode_sensor_frame f ++ rest) sensors
      = some ({ imu_angle := f.wheel_speed,
                wheel_speed := f.imu_angle,
                right_TOF := f.right_distance,
                left_TOF := f.left_distance,
                rear_TOF := f.rear_distance,
                drive_mode_1 := f.drive_mode,
                drive_mode_2 := sensors.drive_mode_2 }, rest) := by
  obtain ⟨⟨a1, a2⟩, ⟨b1, b2⟩, ⟨c1, c2⟩, ⟨d1, d2⟩, ⟨e1, e2⟩, ⟨g1, g2⟩⟩ := hf
  simp only [encode_sensor_frame, List.cons_append, List.nil_append, read_from_teensy_twelve,
    int16_byte_pair _ a1 a2, int16_byte_pair _ b1 b2, int16_byte_pair _ c1 c2,
    int16_byte_pair _ d1 d2, int16_byte_pair _ e1 e2, int16_byte_pair _ g1 g2]

/-! ## Frame synchronisation followed by decoding -/

/-- C1 (as amended). When the noise has even length and none of its aligned
byte pairs is the sentinel pair (0x00, 0x83), `pi_sync` (given more loop passes
than there are noise pairs) followed by `read_from_teensy` on
noise ++ sentinel ++ encoding of f ++ tail consumes everything up to the tail
and stores the six encoded values in wire order into imu_angle, wheel_speed,
right_TOF, left_TOF, rear_TOF, drive_mode_1: the first wire value, which the
specification calls wheel_speed, lands in imu_angle and the second in
wheel_speed. -/
theorem sync_then_decode_aligned_noise (noise : List Byte) (f : SensorFrame) (tail : List Byte)
    (sensors : Teensy_Sensors) (fuel : Nat)
    (heven : noise.length % 2 = 0)
    (hnoise : ∀ j, ¬ (noise[2 * j]? = some 0x00 ∧ noise[2 * j + 1]? = some 0x83))
    (hf : f.InRange)
    (hfuel : noise.length / 2 < fuel) :
    (pi_sync fuel (noise ++ [0x00, 0x83] ++ encode_sensor_frame f ++ tail)).bind
        (fun serial => read_from_teensy serial sensors)
      = some ({ imu_angle := f.wheel_speed,
                wheel_speed := f.imu_angle,
                right_TOF := f.right_distance,
                left_TOF := f.left_distance,
                rear_TOF := f.rear_distance,
                drive_mode_1 := f.drive_mode,
                drive_mode_2 := sensors.drive_mode_2 }, tail) := by
  have hsync : pi_sync fuel (noise ++ [0x00, 0x83] ++ encode_sensor_frame f ++ tail)
      = some (encode_sensor_frame f ++ tail) := by
    have := pi_sync_skips_noise (noise.length / 2) noise (encode_sensor_frame f ++ tail) fuel
      (by omega) hnoise hfuel
    simpa [List.append_assoc] using this
  rw [hsync]
  exact read_from_teensy_encoded f hf tail sensors

/-- Witness for C1: two noise bytes, the frame of the end-to-end scenario and a
one-byte tail. -/
theorem sync_then_decode_aligned_noise_witness :
    (pi_sync 2 (([1, 2] : List Byte) ++ [0x00, 0x83]
        ++ encode_sensor_frame ⟨10, 5, 100, 100, 100, 1⟩ ++ [7])).bind
        (fun serial => read_from_teensy serial ⟨0, 0, 0, 0, 0, 0, 0⟩)
      = some ({ imu_angle := 10, wheel_speed := 5, right_TOF := 100, left_TOF := 100,
                rear_TOF := 100, drive_mode_1 := 1, drive_mode_2 := 0 }, [7]) :=
  sync_then_decode_aligned_noise [1, 2] ⟨10, 5, 100, 100, 100, 1⟩ [7] ⟨0, 0, 0, 0, 0, 0, 0⟩ 2
    (by decide)
    (by
      intro j
      match j with
      | 0 => decide
      | j + 1 =>
        have e1 : 2 * (j + 1) = 2 * j + 1 + 1 := by ring
        rw [e1]
        simp)
    (by decide) (by decide)

/-- Counterexample to C1 as stated, at three inputs, with `Holds` the
recovery of the frame field by field. (1) One noise byte (odd length) before
the sentinel and the frame with all fields 1: the scan is misaligned and uses up
the stream, `pi_sync` returns for no number of loop passes. (2) The noise
0x00, 0x83 (an aligned sentinel pair): `pi_sync` stops inside the noise and the
decoded message does not hold the frame. (3) No noise and the frame
wheel_speed = 10, imu_angle = 5, ...: the decoded message has the two values
exchanged. -/
theorem sync_then_decode_not_robust :
    (¬ ∃ fuel : Nat, ∃ r : Teensy_Sensors × List Byte,
      (pi_sync fuel (([7] : List Byte) ++ [0x00, 0x83]
          ++ encode_sensor_frame ⟨1, 1, 1, 1, 1, 1⟩ ++ [])).bind
          (fun serial => read_from_teensy serial ⟨0, 0, 0, 0, 0, 0, 0⟩) = some r) ∧
    (¬ ∃ fuel : Nat, ∃ r : Teensy_Sensors × List Byte,
      (pi_sync fuel (([0x00, 0x83] : List Byte) ++ [0x00, 0x83]
          ++ encode_sensor_frame ⟨1, 1, 1, 1, 1, 1⟩ ++ [])).bind
          (fun serial => read_from_teensy serial ⟨0, 0, 0, 0, 0, 0, 0⟩) = some r
        ∧ r.1.Holds ⟨1, 1, 1, 1, 1, 1⟩) ∧
    (¬ ∃ fuel : Nat, ∃ r : Teensy_Sensors × List Byte,
      (pi_sync fuel (([] : List Byte) ++ [0x00, 0x83]
          ++ encode_sensor_frame ⟨10, 5, 100, 100, 100, 1⟩ ++ [])).bind
          (fun serial => read_from_teensy serial ⟨0, 0, 0, 0, 0, 0, 0⟩) = some r
        ∧ r.1.Holds ⟨10, 5, 100, 100, 100, 1⟩) := by
  refine ⟨?_, ?_, ?_⟩
  · rintro ⟨fuel, r, h⟩
    have hnone : pi_sync fuel (([7] : List Byte) ++ [0x00, 0x83]
        ++ encode_sensor_frame ⟨1, 1, 1, 1, 1, 1⟩ ++ []) = none := by
      by_cases hle : fuel ≤ 8
      · interval_cases fuel <;> decide
      · rw [pi_sync_fuel_irrelevant 8 _ fuel 8 (by decide) (by omega) (le_refl 8)]
        decide
    rw [hnone] at h
    simp at h
  · rintro ⟨fuel, r, h, hr⟩
    match fuel with
    | 0 => simp [pi_sync] at h
    | k + 1 =>
      rw [List.append_assoc, List.append_assoc] at h
      simp only [List.cons_append, List.nil_append, pi_sync_at_sentinel, Option.some_bind] at h
      have h2 : r = (⟨-32000, 1, 1, 1, 1, 1, 0⟩, [1, 0]) := by
        rw [← Option.some_inj, ← h]; decide
      subst h2
      revert hr
      decide
  · rintro ⟨fuel, r, h, hr⟩
    match fuel with
    | 0 => simp [pi_sync] at h
    | k + 1 =>
      rw [List.append_assoc, List.append_assoc] at h
      simp only [List.cons_append, List.nil_append, pi_sync_at_sentinel, Option.some_bind] at h
      have h2 : r = (⟨10, 5, 100, 100, 100, 1, 0⟩, []) := by
        rw [← Option.some_inj, ← h]; decide
      subst h2
      revert hr
      decide

/-! ## The reader cycle -/

/-- C3 (evaluation at the failing input). The buffer holds two complete framed
records. For every fuel of at least 2, one pass of the main loop calls
`pi_sync` and `read_from_teensy` once each, publishes the first record and
leaves the 14 bytes of the second record in the buffer: after the first pass of
the `for` loop the bound is `26 / 14 = 1`, computed from the byte count that the
body stored in `waiting_bytes`. -/
theorem main_loop_two_records (fuel : Nat) :
    main_loop_iteration (fuel + 2)
        [0x00, 0x83, 1, 0, 2, 0, 3, 0, 4, 0, 5, 0, 6, 0,
         0x00, 0x83, 11, 0, 12, 0, 13, 0, 14, 0, 15, 0, 16, 0]
        ⟨0, 0, 0, 0, 0, 0, 0⟩
      = some { serial := [0x00, 0x83, 11, 0, 12, 0, 13, 0, 14, 0, 15, 0, 16, 0],
               sensor_data :=
                 { imu_angle := 1, wheel_speed := 2, right_TOF := 3, left_TOF := 4,
                   rear_TOF := 5, drive_mode_1 := 6, drive_mode_2 := 0 },
               waiting_bytes := 26,
               trace := [Event.sync 28, Event.decode 26,
                 Event.publish
                   { imu_angle := 1, wheel_speed := 2, right_TOF := 3, left_TOF := 4,
                     rear_TOF := 5, drive_mode_1 := 6, drive_mode_2 := 0 }] } := by
  have hstep : main_for_loop (fuel + 2) (fuel + 2) 0
      ⟨[0x00, 0x83, 1, 0, 2, 0, 3, 0, 4, 0, 5, 0, 6, 0,
        0x00, 0x83, 11, 0, 12, 0, 13, 0, 14, 0, 15, 0, 16, 0],
        ⟨0, 0, 0, 0, 0, 0, 0⟩, 28, []⟩
      = some ⟨[0x00, 0x83, 11, 0, 12, 0, 13, 0, 14, 0, 15, 0, 16, 0], ⟨1, 2, 3, 4, 5, 6, 0⟩, 26,
          [Event.sync 28, Event.decode 26]⟩ := by
    have h1 : (0 : Int) < Int.tdiv 28 SENSOR_DATA_SIZE_W_SYNC := by decide
    have h3 : (26 : Int) ≥ SENSOR_DATA_SIZE := by decide
    have h4 : ¬ ((0 : Int) + 1 < Int.tdiv 26 SENSOR_DATA_SIZE_W_SYNC) := by decide
    have h5 : read_from_teensy
        ([1, 0, 2, 0, 3, 0, 4, 0, 5, 0, 6, 0,
          0x00, 0x83, 11, 0, 12, 0, 13, 0, 14, 0, 15, 0, 16, 0] : List Byte)
        ⟨0, 0, 0, 0, 0, 0, 0⟩
        = some (⟨1, 2, 3, 4, 5, 6, 0⟩,
            [0x00, 0x83, 11, 0, 12, 0, 13, 0, 14, 0, 15, 0, 16, 0]) := by decide
    have h6 : serialDataAvail
        ([1, 0, 2, 0, 3, 0, 4, 0, 5, 0, 6, 0,
          0x00, 0x83, 11, 0, 12, 0, 13, 0, 14, 0, 15, 0, 16, 0] : List Byte) = 26 := by decide
    have h7 : serialDataAvail
        ([0x00, 0x83, 1, 0, 2, 0, 3, 0, 4, 0, 5, 0, 6, 0,
          0x00, 0x83, 11, 0, 12, 0, 13, 0, 14, 0, 15, 0, 16, 0] : List Byte) = 28 := by decide
    have h8 : toInt16 26 = 26 := by decide
    rw [main_for_loop]
    simp only [h1, if_true, pi_sync_at_sentinel, h3, h5, h6, h7, h8, List.nil_append]
    rw [main_for_loop]
    simp only [h4, if_false, List.cons_append, List.nil_append]
  have h0 : toInt16 (serialDataAvail
      ([0x00, 0x83, 1, 0, 2, 0, 3, 0, 4, 0, 5, 0, 6, 0,
        0x00, 0x83, 11, 0, 12, 0, 13, 0, 14, 0, 15, 0, 16, 0] : List Byte)) = 28 := by decide
  simp only [main_loop_iteration, h0, hstep, List.cons_append, List.nil_append]

/-! ## Field order of the sensor decoder -/

/-- C4 (as amended). For every 12 bytes followed by any rest,
`read_from_teensy` consumes exactly the 12 bytes as six little-endian signed
16-bit values and stores them, in wire order, into imu_angle, wheel_speed,
right_TOF, left_TOF, rear_TOF, drive_mode_1 (first value to imu_angle, second to
wheel_speed); drive_mode_2 keeps its value. -/
theorem read_from_teensy_field_order (b0 b1 b2 b3 b4 b5 b6 b7 b8 b9 b10 b11 : Byte)
    (rest : List Byte) (sensors : Teensy_Sensors) :
    read_from_teensy (b0 :: b1 :: b2 :: b3 :: b4 :: b5 :: b6 :: b7 :: b8 :: b9 :: b10 :: b11 :: rest)
        sensors
      = some ({ imu_angle := toInt16 ((b0.val : Int) + 256 * (b1.val : Int)),
                wheel_speed := toInt16 ((b2.val : Int) + 256 * (b3.val : Int)),
                right_TOF := toInt16 ((b4.val : Int) + 256 * (b5.val : Int)),
                left_TOF := toInt16 ((b6.val : Int) + 256 * (b7.val : Int)),
                rear_TOF := toInt16 ((b8.val : Int) + 256 * (b9.val : Int)),
                drive_mode_1 := toInt16 ((b10.val : Int) + 256 * (b11.val : Int)),
                drive_mode_2 := sensors.drive_mode_2 }, rest) :=
  read_from_teensy_twelve b0 b1 b2 b3 b4 b5 b6 b7 b8 b9 b10 b11 rest sensors

/-- Counterexample to C4 as stated: on the 12 bytes whose six values are
10, 5, 100, 100, 100, 1 the decoder leaves wheel_speed = 5 and imu_angle = 10:
the first wire value is not assigned to wheel_speed. -/
theorem read_from_teensy_first_value_not_wheel_speed :
    (read_from_teensy [10, 0, 5, 0, 100, 0, 100, 0, 100, 0, 1, 0] ⟨0, 0, 0, 0, 0, 0, 0⟩).map
        (fun r => (r.1.wheel_speed, r.1.imu_angle, r.2))
      = some (5, 10, []) := by
  decide

/-! ## Actuator frames -/

/-- C2 (evaluation at the failing input). For the actuator frame
motor_output = 300, steer_output = 90, fifth_output = 1, `write_to_teensy`
emits 00 83 2C 01 5A 00 01 00. `read_from_pi` on these bytes returns
(0, 44, 90) and leaves two bytes unread; even on the six bytes after the
sentinel it returns motor_output = 44, the low byte of 300. -/
theorem read_from_pi_of_write_to_teensy :
    write_to_teensy [] ⟨300, 90, 1⟩ = [0x00, 0x83, 0x2C, 0x01, 0x5A, 0x00, 0x01, 0x00] ∧
    read_from_pi (write_to_teensy [] ⟨300, 90, 1⟩) ⟨0, 0, 0⟩
      = some (⟨0, 44, 90⟩, [0x01, 0x00]) ∧
    read_from_pi ((write_to_teensy [] ⟨300, 90, 1⟩).drop 2) ⟨0, 0, 0⟩
      = some (⟨44, 90, 1⟩, []) := by
  decide

/-! ## `stop_motor` -/

theorem error_range_eq :
    truncToInt (KI * (SAT_ERROR : ℚ) + ((KP * WHEEL_SPEED_RANGE : Int) : ℚ)) = 1050 := by
  have h : KI * (SAT_ERROR : ℚ) + ((KP * WHEEL_SPEED_RANGE : Int) : ℚ) = ((1050 : Int) : ℚ) := by
    simp only [KI, SAT_ERROR, KP, WHEEL_SPEED_RANGE]
    norm_num
  rw [h, truncToInt_intCast]

theorem stop_motor_fst (wheel_speed time_step error_sum : Int) :
    (stop_motor wheel_speed time_step error_sum).1 = 90 := by
  have hq : Int.tdiv MOTOR_RANGE 1050 = 0 := by decide
  simp only [stop_motor, error_range_eq, hq, Int.cast_zero, mul_zero, zero_add, MOTOR_STOP]
  exact truncToInt_intCast 90

theorem stop_motor_snd (wheel_speed time_step error_sum : Int) :
    (stop_motor wheel_speed time_step error_sum).2
      = if error_sum < 1000 ∧ (time_step > 0 ∧ time_step < 500) then
          (if toInt16 (error_sum + time_step * toInt16 (0 - wheel_speed)) > 1000 then 1000
            else toInt16 (error_sum + time_step * toInt16 (0 - wheel_speed)))
        else error_sum := by
  simp only [stop_motor, SAT_ERROR, MAX_TIME_STEP, WHEEL_SPEED_STOP]

theorem toInt16_add_mul (x k : Int) : toInt16 (x + 65536 * k) = toInt16 x := by
  unfold toInt16; omega

theorem toInt16_sum_mul (a t w : Int) : toInt16 (a + t * toInt16 w) = toInt16 (a + t * w) := by
  have hw : ∃ k : Int, toInt16 w = w + 65536 * k := ⟨(toInt16 w - w) / 65536, by
    unfold toInt16; omega⟩
  obtain ⟨k, hk⟩ := hw
  rw [hk]
  have : a + t * (w + 65536 * k) = (a + t * w) + 65536 * (t * k) := by ring
  rw [this, toInt16_add_mul]

/-- C5 (evaluation at the failing input). With wheel_speed = -100,
time_step = 10 and error_sum = 0 the call leaves error_sum = 1000 and returns
90, while the formula of the specification with the ratio 180/1050 gives
(100 + 0.05 * 1000) * 180/1050 + 90 = 115.7..., that is 115. -/
theorem stop_motor_output_differs_from_formula :
    stop_motor (-100) 10 0 = (90, 1000) ∧ stop_motor_spec_output (-100) 1000 = 115 := by
  constructor
  · apply Prod.ext
    · exact stop_motor_fst _ _ _
    · rw [stop_motor_snd]; decide
  · have h : ((((1 : ℚ) * ((0 - (-100) : Int) : ℚ)) + (5 / 100 : ℚ) * ((1000 : Int) : ℚ))
        * ((180 : ℚ) / (1050 : ℚ)) + 90) = ((810 : Int) : ℚ) / ((7 : Nat) : ℚ) := by
      norm_num
    unfold stop_motor_spec_output
    rw [h, truncToInt_div_nonneg 810 7 (by decide)]
    decide

/-- C6 (evaluation at the failing input). With the constant arguments
wheel_speed = -256 (error 256) and time_step = 256, which the guard accepts,
every call adds 256 * 256 = 65536 to the 16-bit accumulator, which wraps to the
value it had: started from 0, error_sum is 0 after every number of calls and
never reaches 1000. -/
theorem error_sum_stuck_at_zero (n : Nat) : error_sum_after (-256) 256 n 0 = 0 := by
  induction n with
  | zero => rfl
  | succ n ih =>
    have h : (stop_motor (-256) 256 0).2 = 0 := by rw [stop_motor_snd]; decide
    rw [error_sum_after, h, ih]

theorem stop_motor_error_sum_le (wheel_speed time_step error_sum : Int)
    (h : error_sum ≤ 1000) : (stop_motor wheel_speed time_step error_sum).2 ≤ 1000 := by
  rw [stop_motor_snd]
  split
  · split <;> omega
  · exact h

theorem error_sum_after_calls_le (calls : List (Int × Int)) :
    ∀ error_sum : Int, error_sum ≤ 1000 → error_sum_after_calls calls error_sum ≤ 1000 := by
  induction calls with
  | nil => intro error_sum h; exact h
  | cons c calls ih =>
    intro error_sum h
    obtain ⟨wheel_speed, time_step⟩ := c
    exact ih _ (stop_motor_error_sum_le wheel_speed time_step error_sum h)

/-- C7. Started from error_sum = 0, after any finite sequence of `stop_motor`
calls, whatever the wheel_speed and time_step arguments (all int16 values
included, the 16-bit wrap-around of the accumulation being part of
`stop_motor`), error_sum is at most 1000 (SAT_ERROR). -/
theorem error_sum_never_exceeds_ceiling (calls : List (Int × Int)) :
    error_sum_after_calls calls 0 ≤ SAT_ERROR :=
  error_sum_after_calls_le calls 0 (by decide)

/-- C8 (as amended). For every accumulator value below 1000 and every time_step
with 0 < time_step < 500 (500 excluded), when error_sum + time_step * (0 -
wheel_speed) is within the int16 range, `stop_motor` replaces error_sum by
min(1000, error_sum + time_step * (0 - wheel_speed)); with time_step = 500 the
accumulator is left as it was. -/
theorem stop_motor_accumulates (wheel_speed time_step error_sum : Int)
    (hsum : error_sum < 1000) (hpos : 0 < time_step) (hmax : time_step < 500)
    (hlo : -32768 ≤ error_sum + time_step * (0 - wheel_speed))
    (hhi : error_sum + time_step * (0 - wheel_speed) ≤ 32767) :
    (stop_motor wheel_speed time_step error_sum).2
        = min 1000 (error_sum + time_step * (0 - wheel_speed)) ∧
    (stop_motor wheel_speed 500 error_sum).2 = error_sum := by
  constructor
  · rw [stop_motor_snd, if_pos ⟨hsum, hpos, hmax⟩, toInt16_sum_mul,
      toInt16_of_inRange _ hlo hhi]
    split <;> omega
  · rw [stop_motor_snd, if_neg (by omega)]

/-- Witness for C8: wheel_speed = -3, time_step = 100, error_sum = 0 gives
error_sum = 300. -/
theorem stop_motor_accumulates_witness :
    (stop_motor (-3) 100 0).2 = min 1000 (0 + 100 * (0 - (-3))) ∧
    (stop_motor (-3) 500 0).2 = 0 :=
  stop_motor_accumulates (-3) 100 0 (by decide) (by decide) (by decide) (by decide) (by decide)

/-- Counterexample to C8 as stated, at two inputs with error_sum = 0.
With wheel_speed = -1 and time_step = 500 the claim gives
min(1000, 0 + 500 * 1) = 500, and `stop_motor` leaves error_sum = 0. With
wheel_speed = -400 and time_step = 100 the claim gives min(1000, 40000) = 1000,
and `stop_motor` leaves error_sum = -25536, the 16-bit wrap of 40000. -/
theorem stop_motor_rejects_time_step_500 :
    ((stop_motor (-1) 500 0).2 = 0 ∧ min (1000 : Int) (0 + 500 * (0 - (-1))) = 500) ∧
    ((stop_motor (-400) 100 0).2 = -25536 ∧
      min (1000 : Int) (0 + 100 * (0 - (-400))) = 1000) := by
  refine ⟨⟨?_, ?_⟩, ⟨?_, ?_⟩⟩
  · rw [stop_motor_snd]; decide
  · decide
  · rw [stop_motor_snd]; decide
  · decide

/-! ## `scale_output` -/

theorem scale_output_eq (raw : Int) :
    scale_output raw = max 35 ((9 * min 100 (max (-100) raw) + 900) / 10) := by
  have hc : (if (if raw > 100 then 100 else raw) < -100 then -100
      else (if raw > 100 then 100 else raw)) = min 100 (max (-100) raw) := by
    split_ifs <;> omega
  have hrange : -100 ≤ min 100 (max (-100) raw) ∧ min 100 (max (-100) raw) ≤ 100 := by omega
  generalize min 100 (max (-100) raw) = c at hc hrange
  have hq : (9 / 10 : ℚ) * (c : ℚ) + 90 = ((9 * c + 900 : Int) : ℚ) / ((10 : Nat) : ℚ) := by
    push_cast; ring
  simp only [scale_output, hc, hq]
  rw [truncToInt_div_nonneg _ _ (by omega)]
  split <;> omega

/-- C9. For every raw (every int16 value in particular), with
c = min(100, max(-100, raw)): `scale_output raw` is max(35, trunc(0.9 * c + 90)),
the product taken exactly, and trunc(0.9 * c + 90) is floor((9 * c + 900) / 10),
the operand being non-negative. -/
theorem scale_output_formula (raw : Int) :
    scale_output raw
        = max 35 (truncToInt ((9 / 10 : ℚ) * ((min 100 (max (-100) raw) : Int) : ℚ) + 90)) ∧
    truncToInt ((9 / 10 : ℚ) * ((min 100 (max (-100) raw) : Int) : ℚ) + 90)
        = (9 * min 100 (max (-100) raw) + 900) / 10 ∧
    0 ≤ (9 / 10 : ℚ) * ((min 100 (max (-100) raw) : Int) : ℚ) + 90 := by
  have hrange : -100 ≤ min 100 (max (-100) raw) ∧ min 100 (max (-100) raw) ≤ 100 := by omega
  have hq : (9 / 10 : ℚ) * ((min 100 (max (-100) raw) : Int) : ℚ) + 90
      = ((9 * min 100 (max (-100) raw) + 900 : Int) : ℚ) / ((10 : Nat) : ℚ) := by
    push_cast; ring
  have ht : truncToInt ((9 / 10 : ℚ) * ((min 100 (max (-100) raw) : Int) : ℚ) + 90)
      = (9 * min 100 (max (-100) raw) + 900) / 10 := by
    rw [hq, truncToInt_div_nonneg _ _ (by omega)]
    rfl
  refine ⟨?_, ht, ?_⟩
  · rw [ht, scale_output_eq]
  · rw [hq]
    have : (0 : Int) ≤ 9 * min 100 (max (-100) raw) + 900 := by omega
    have h2 : (0 : ℚ) ≤ ((9 * min 100 (max (-100) raw) + 900 : Int) : ℚ) := by exact_mod_cast this
    positivity

/-- C10. `scale_output 100 = 180`; every raw above 100 gives the same output as
100; every raw below -100 gives the same output as -100, which is 35; in
particular 150 gives 180 and -150 gives 35. -/
theorem scale_output_saturation :
    scale_output 100 = 180 ∧
    (∀ raw : Int, 100 < raw → scale_output raw = scale_output 100) ∧
    (∀ raw : Int, raw < -100 → scale_output raw = scale_output (-100)) ∧
    scale_output (-100) = 35 ∧
    scale_output 150 = 180 ∧ scale_output (-150) = 35 := by
  refine ⟨?_, ?_, ?_, ?_, ?_, ?_⟩
  · rw [scale_output_eq]; decide
  · intro raw h
    rw [scale_output_eq, scale_output_eq]
    have : min 100 (max (-100) raw) = min 100 (max (-100) 100) := by omega
    rw [this]
  · intro raw h
    rw [scale_output_eq, scale_output_eq]
    have : min 100 (max (-100) raw) = min 100 (max (-100) (-100)) := by omega
    rw [this]
  · rw [scale_output_eq]; decide
  · rw [scale_output_eq]; decide
  · rw [scale_output_eq]; decide

/-- Witness for C10: the inputs 150 and -150 of the specification. -/
theorem scale_output_saturation_witness :
    scale_output 150 = scale_output 100 ∧ scale_output (-150) = scale_output (-100) :=
  ⟨scale_output_saturation.2.1 150 (by decide), scale_output_saturation.2.2.1 (-150) (by decide)⟩

/-- C20. For every input (every int16 value in particular) the value returned
by `scale_output` lies between 0 and 180 inclusive and is never below the
floor 35. -/
theorem scale_output_range (raw : Int) :
    (0 ≤ scale_output raw ∧ scale_output raw ≤ 180) ∧ 35 ≤ scale_output raw := by
  rw [scale_output_eq]
  omega

/-! ## `steer_servo_loop_fn` -/

/-- C11. For every angle below 0 or above 180, `steer_servo_loop_fn` writes
the centred value 90 to the servo (one hardware write, of 90), so the commanded
value after the call is 90; the bounds 0 and 180 themselves are passed through:
after the call the commanded value is 0, respectively 180. -/
theorem steer_fallback (angle : Int) (servo : Servo) (h : angle < 0 ∨ 180 < angle) :
    (steer_servo_loop_fn angle servo).read = 90 ∧
    (steer_servo_loop_fn angle servo).writes = servo.writes ++ [90] ∧
    (steer_servo_loop_fn 0 servo).read = 0 ∧
    (steer_servo_loop_fn 180 servo).read = 180 := by
  have hc : angle > 180 ∨ angle < 0 := by omega
  refine ⟨?_, ?_, ?_, ?_⟩
  · simp [steer_servo_loop_fn, hc, Servo.write, Servo.read, STRAIGHT]
  · simp [steer_servo_loop_fn, hc, Servo.write, STRAIGHT]
  · by_cases h0 : (0 : Int) = servo.value
    · simp [steer_servo_loop_fn, Servo.read, ← h0]
    · simp [steer_servo_loop_fn, Servo.read, Servo.write, h0]
  · by_cases h0 : (180 : Int) = servo.value
    · simp [steer_servo_loop_fn, Servo.read, ← h0]
    · simp [steer_servo_loop_fn, Servo.read, Servo.write, h0]

/-- Witness for C11: the angles -5 and 200 of the specification, from a servo
last commanded to 45. -/
theorem steer_fallback_witness :
    ((steer_servo_loop_fn (-5) ⟨45, []⟩).read = 90 ∧
      (steer_servo_loop_fn (-5) ⟨45, []⟩).writes = [] ++ [90] ∧
      (steer_servo_loop_fn 0 ⟨45, []⟩).read = 0 ∧
      (steer_servo_loop_fn 180 ⟨45, []⟩).read = 180) ∧
    (steer_servo_loop_fn 200 ⟨45, []⟩).read = 90 :=
  ⟨steer_fallback (-5) ⟨45, []⟩ (by decide), (steer_fallback 200 ⟨45, []⟩ (by decide)).1⟩

/-- C12. For every angle in [0, 180] and every servo whose last commanded
value is p (which `read()` returns), after `steer_servo_loop_fn angle` the
commanded value is the angle; when the angle differs from p exactly one
hardware write is issued, of the angle, and when it equals p none is. -/
theorem steer_passthrough (angle : Int) (servo : Servo) (h0 : 0 ≤ angle) (h1 : angle ≤ 180) :
    (steer_servo_loop_fn angle servo).read = angle ∧
    (angle ≠ servo.read → (steer_servo_loop_fn angle servo).writes = servo.writes ++ [angle]) ∧
    (angle = servo.read → (steer_servo_loop_fn angle servo).writes = servo.writes) ∧
    ((steer_servo_loop_fn angle servo).writes ≠ servo.writes ↔ angle ≠ servo.read) := by
  have hc : ¬ (angle > 180 ∨ angle < 0) := by omega
  by_cases hp : angle = servo.value
  · subst hp
    have hr : steer_servo_loop_fn servo.value servo = servo := by
      simp only [steer_servo_loop_fn, if_neg hc, Servo.read, ne_eq, not_true_eq_false, if_false]
    rw [hr]
    simp [Servo.read]
  · have hr : steer_servo_loop_fn angle servo = servo.write angle := by
      simp [steer_servo_loop_fn, hc, Servo.read, hp]
    rw [hr]
    simp [Servo.read, Servo.write, hp]

/-- Witness for C12: angle 45 from a servo last commanded to 90 (one write),
and angle 45 from a servo last commanded to 45 (no write). -/
theorem steer_passthrough_witness :
    (steer_servo_loop_fn 45 ⟨90, [90]⟩).writes = [90, 45] ∧
    (steer_servo_loop_fn 45 ⟨45, [45]⟩).writes = [45] :=
  ⟨(steer_passthrough 45 ⟨90, [90]⟩ (by decide) (by decide)).2.1 (by decide),
   (steer_passthrough 45 ⟨45, [45]⟩ (by decide) (by decide)).2.2.1 (by decide)⟩

/-! ## Semantics of `pi_sync` and of the two-byte codec -/

theorem pi_sync_first_sentinel (j : Nat) : ∀ (s : List Byte) (fuel : Nat),
    (s[2 * j]? = some 0x00 ∧ s[2 * j + 1]? = some 0x83) →
    (∀ i, i < j → ¬ (s[2 * i]? = some 0x00 ∧ s[2 * i + 1]? = some 0x83)) →
    j < fuel →
    pi_sync fuel s = some (s.drop (2 * j + 2)) ∧
    read_sensor_msg (s.drop (2 * j)) 2 = some (SYNC_VALUE, s.drop (2 * j + 2)) := by
  induction j with
  | zero =>
    intro s fuel hj _ hfuel
    obtain ⟨k, rfl⟩ : ∃ k, fuel = k + 1 := ⟨fuel - 1, by omega⟩
    match s, hj with
    | [], hj => simp at hj
    | [_], hj => simp at hj
    | a :: b :: rest, hj =>
      simp only [Nat.mul_zero, Nat.zero_add, List.getElem?_cons_zero, List.getElem?_cons_succ,
        Option.some.injEq] at hj
      obtain ⟨ha, hb⟩ := hj
      subst ha hb
      refine ⟨pi_sync_at_sentinel k rest, ?_⟩
      rw [List.drop_zero, read_sensor_msg_two, (pair_eq_sync_iff 0x00 0x83).2 ⟨rfl, rfl⟩]
      rfl
  | succ j ih =>
    intro s fuel hj hfirst hfuel
    obtain ⟨k, rfl⟩ : ∃ k, fuel = k + 1 := ⟨fuel - 1, by omega⟩
    have e1 : 2 * (j + 1) = 2 * j + 1 + 1 := by ring
    have e2 : 2 * (j + 1) + 2 = (2 * j + 2) + 1 + 1 := by ring
    match s, hj, hfirst with
    | [], hj, _ => simp at hj
    | [_], hj, _ => rw [e1] at hj; simp at hj
    | a :: b :: rest, hj, hfirst =>
      have hpair : ¬ (a = 0x00 ∧ b = 0x83) := by
        intro hb
        exact hfirst 0 (by omega) (by simp [hb.1, hb.2])
      have hj' : rest[2 * j]? = some 0x00 ∧ rest[2 * j + 1]? = some 0x83 := by
        rw [e1] at hj
        simpa using hj
      have hfirst' : ∀ i, i < j → ¬ (rest[2 * i]? = some 0x00 ∧ rest[2 * i + 1]? = some 0x83) := by
        intro i hi hri
        apply hfirst (i + 1) (by omega)
        have e3 : 2 * (i + 1) = 2 * i + 1 + 1 := by ring
        rw [e3]
        simpa using hri
      obtain ⟨h1, h2⟩ := ih rest k hj' hfirst' (by omega)
      rw [pi_sync_skip_pair _ _ _ _ hpair, e2, e1]
      simp only [List.drop_succ_cons]
      exact ⟨h1, h2⟩

/-- C13. On a byte stream that contains an aligned pair (s[2j], s[2j+1]) equal
to the bytes 0x00, 0x83, there is a first such pair, at index j; the value
`read_sensor_msg` decodes at position 2j is -32000; and for every number of loop
passes above j, `pi_sync` returns with exactly the first 2j+2 bytes consumed: the
j earlier pairs are discarded and the stream continues right after the
sentinel. -/
theorem pi_sync_semantics (s : List Byte)
    (h : ∃ j, s[2 * j]? = some 0x00 ∧ s[2 * j + 1]? = some 0x83) :
    ∃ j, (s[2 * j]? = some 0x00 ∧ s[2 * j + 1]? = some 0x83) ∧
      (∀ i, i < j → ¬ (s[2 * i]? = some 0x00 ∧ s[2 * i + 1]? = some 0x83)) ∧
      read_sensor_msg (s.drop (2 * j)) 2 = some (SYNC_VALUE, s.drop (2 * j + 2)) ∧
      ∀ fuel, j < fuel → pi_sync fuel s = some (s.drop (2 * j + 2)) := by
  classical
  refine ⟨Nat.find h, Nat.find_spec h, fun i hi => Nat.find_min h hi, ?_, ?_⟩
  · exact (pi_sync_first_sentinel (Nat.find h) s (Nat.find h + 1) (Nat.find_spec h)
      (fun i hi => Nat.find_min h hi) (by omega)).2
  · intro fuel hfuel
    exact (pi_sync_first_sentinel (Nat.find h) s fuel (Nat.find_spec h)
      (fun i hi => Nat.find_min h hi) hfuel).1

/-- Witness for C13: two pairs of other bytes, the sentinel, one more byte. -/
theorem pi_sync_semantics_witness :
    ∃ j, (([1, 2, 0x83, 0x00, 0x00, 0x83, 7] : List Byte)[2 * j]? = some 0x00 ∧
        ([1, 2, 0x83, 0x00, 0x00, 0x83, 7] : List Byte)[2 * j + 1]? = some 0x83) ∧
      (∀ i, i < j → ¬ (([1, 2, 0x83, 0x00, 0x00, 0x83, 7] : List Byte)[2 * i]? = some 0x00 ∧
        ([1, 2, 0x83, 0x00, 0x00, 0x83, 7] : List Byte)[2 * i + 1]? = some 0x83)) ∧
      read_sensor_msg (([1, 2, 0x83, 0x00, 0x00, 0x83, 7] : List Byte).drop (2 * j)) 2
        = some (SYNC_VALUE, ([1, 2, 0x83, 0x00, 0x00, 0x83, 7] : List Byte).drop (2 * j + 2)) ∧
      ∀ fuel, j < fuel → pi_sync fuel [1, 2, 0x83, 0x00, 0x00, 0x83, 7]
        = some (([1, 2, 0x83, 0x00, 0x00, 0x83, 7] : List Byte).drop (2 * j + 2)) :=
  pi_sync_semantics [1, 2, 0x83, 0x00, 0x00, 0x83, 7] ⟨2, by decide⟩

theorem byteOfInt_val (n : Int) : ((byteOfInt n).val : Int) = n % 256 := by
  have h : ((n % 256).toNat : Int) = n % 256 := Int.toNat_of_nonneg (by omega)
  simp only [byteOfInt]
  push_cast
  omega

theorem int16_byte_zero (v : Int) : int16_byte v 0 = byteOfInt v := by
  apply Fin.ext
  have h1 : ((v % 65536).toNat : Int) = v % 65536 := Int.toNat_of_nonneg (by omega)
  have h2 : ((v % 256).toNat : Int) = v % 256 := Int.toNat_of_nonneg (by omega)
  simp only [int16_byte, byteOfInt, Nat.mul_zero, Nat.shiftRight_zero]
  omega

theorem int16_byte_one (v : Int) : int16_byte v 1 = byteOfInt (v / 256) := by
  apply Fin.ext
  have h1 : ((v % 65536).toNat : Int) = v % 65536 := Int.toNat_of_nonneg (by omega)
  have h2 : ((v / 256 % 256).toNat : Int) = v / 256 % 256 := Int.toNat_of_nonneg (by omega)
  simp only [int16_byte, byteOfInt, Nat.mul_one, Nat.shiftRight_eq_div_pow]
  omega

/-- C14. For every pair of bytes b0, b1, `read_sensor_msg` with num_bytes = 2
consumes exactly those two bytes and returns the signed 16-bit value of
b0 + 256 * b1; and for every int16 value v, decoding the bytes v mod 256 and
(v div 256) mod 256 returns v. -/
theorem read_sensor_msg_little_endian :
    (∀ (b0 b1 : Byte) (rest : List Byte),
      read_sensor_msg (b0 :: b1 :: rest) 2
        = some (toInt16 ((b0.val : Int) + 256 * (b1.val : Int)), rest)) ∧
    (∀ (v : Int) (rest : List Byte), -32768 ≤ v → v ≤ 32767 →
      read_sensor_msg (byteOfInt v :: byteOfInt (v / 256) :: rest) 2 = some (v, rest)) := by
  refine ⟨read_sensor_msg_two, ?_⟩
  intro v rest h1 h2
  rw [read_sensor_msg_two, byteOfInt_val, byteOfInt_val]
  have : toInt16 (v % 256 + 256 * (v / 256 % 256)) = v := by unfold toInt16; omega
  rw [this]

/-- Witness for C14: the value -32000 goes through its bytes 0x00, 0x83. -/
theorem read_sensor_msg_little_endian_witness :
    read_sensor_msg (byteOfInt (-32000) :: byteOfInt (-32000 / 256) :: [7]) 2
      = some (-32000, [7]) :=
  read_sensor_msg_little_endian.2 (-32000) [7] (by decide) (by decide)

theorem write_actuator_msg_two (serial : List Byte) (v : Int) :
    write_actuator_msg serial v 2 = serial ++ [byteOfInt v, byteOfInt (v / 256)] := by
  simp [write_actuator_msg, List.range_succ, serialPutchar, int16_byte_zero, int16_byte_one]

/-- C15. For every actuator frame, `write_to_teensy` appends exactly 8 bytes to
the outgoing stream, in order: the sentinel -32000 as 0x00, 0x83, then
motor_output, steer_output and fifth_output, each as its low byte (value mod
256) followed by its high byte ((value div 256) mod 256), the host being
little-endian. -/
theorem write_to_teensy_bytes (serial : List Byte) (f : Teensy_Actuators) :
    write_to_teensy serial f
      = serial ++ [0x00, 0x83,
          byteOfInt f.motor_output, byteOfInt (f.motor_output / 256),
          byteOfInt f.steer_output, byteOfInt (f.steer_output / 256),
          byteOfInt f.fifth_output, byteOfInt (f.fifth_output / 256)] ∧
    (write_to_teensy serial f).length = serial.length + 8 := by
  have hs0 : byteOfInt SYNC_VALUE = 0x00 := by decide
  have hs1 : byteOfInt (SYNC_VALUE / 256) = 0x83 := by decide
  have h : write_to_teensy serial f
      = serial ++ [0x00, 0x83,
          byteOfInt f.motor_output, byteOfInt (f.motor_output / 256),
          byteOfInt f.steer_output, byteOfInt (f.steer_output / 256),
          byteOfInt f.fifth_output, byteOfInt (f.fifth_output / 256)] := by
    simp only [write_to_teensy, SHORT_SIZE, write_actuator_msg_two, hs0, hs1,
      List.append_assoc, List.cons_append, List.nil_append]
  refine ⟨h, ?_⟩
  rw [h]
  simp

/-! ## The reader cycle on one record, and the short-read guard -/

theorem main_loop_single_record (fuel : Nat) (sensors : Teensy_Sensors) :
    main_loop_iteration (fuel + 2)
        ([0x00, 0x83] ++ encode_sensor_frame ⟨10, 5, 100, 100, 100, 1⟩) sensors
      = some { serial := [],
               sensor_data :=
                 { imu_angle := 10, wheel_speed := 5, right_TOF := 100, left_TOF := 100,
                   rear_TOF := 100, drive_mode_1 := 1, drive_mode_2 := sensors.drive_mode_2 },
               waiting_bytes := 12,
               trace := [Event.sync 14, Event.decode 12,
                 Event.publish
                   { imu_angle := 10, wheel_speed := 5, right_TOF := 100, left_TOF := 100,
                     rear_TOF := 100, drive_mode_1 := 1,
                     drive_mode_2 := sensors.drive_mode_2 }] } := by
  have henc : ([0x00, 0x83] : List Byte) ++ encode_sensor_frame ⟨10, 5, 100, 100, 100, 1⟩
      = [0x00, 0x83, 10, 0, 5, 0, 100, 0, 100, 0, 100, 0, 1, 0] := by decide
  have h0 : toInt16 (serialDataAvail
      ([0x00, 0x83, 10, 0, 5, 0, 100, 0, 100, 0, 100, 0, 1, 0] : List Byte)) = 14 := by decide
  have h1 : (0 : Int) < Int.tdiv 14 SENSOR_DATA_SIZE_W_SYNC := by decide
  have h2 : serialDataAvail
      ([0x00, 0x83, 10, 0, 5, 0, 100, 0, 100, 0, 100, 0, 1, 0] : List Byte) = 14 := by decide
  have h3 : serialDataAvail ([10, 0, 5, 0, 100, 0, 100, 0, 100, 0, 1, 0] : List Byte) = 12 := by
    decide
  have h4 : toInt16 12 = 12 := by decide
  have h5 : (12 : Int) ≥ SENSOR_DATA_SIZE := by decide
  have h6 : ¬ ((0 : Int) + 1 < Int.tdiv 12 SENSOR_DATA_SIZE_W_SYNC) := by decide
  have v10 : toInt16 (((10 : Byte).val : Int) + 256 * ((0 : Byte).val : Int)) = 10 := by decide
  have v5 : toInt16 (((5 : Byte).val : Int) + 256 * ((0 : Byte).val : Int)) = 5 := by decide
  have v100 : toInt16 (((100 : Byte).val : Int) + 256 * ((0 : Byte).val : Int)) = 100 := by
    decide
  have v1 : toInt16 (((1 : Byte).val : Int) + 256 * ((0 : Byte).val : Int)) = 1 := by decide
  have hstep : main_for_loop (fuel + 2) (fuel + 2) 0
      ⟨[0x00, 0x83, 10, 0, 5, 0, 100, 0, 100, 0, 100, 0, 1, 0], sensors, 14, []⟩
      = some ⟨[], { imu_angle := 10, wheel_speed := 5, right_TOF := 100, left_TOF := 100,
                    rear_TOF := 100, drive_mode_1 := 1, drive_mode_2 := sensors.drive_mode_2 },
          12, [Event.sync 14, Event.decode 12]⟩ := by
    rw [main_for_loop]
    simp only [h1, if_true, pi_sync_at_sentinel, h2, h3, h4, h5, read_from_teensy_twelve,
      v10, v5, v100, v1, List.nil_append]
    rw [main_for_loop]
    simp only [h6, if_false, List.cons_append, List.nil_append]
  rw [henc]
  simp only [main_loop_iteration, h0, hstep, List.cons_append, List.nil_append]

/-- C16 (as amended). With the buffer holding the sentinel followed by the wire
encoding (specification field order) of SensorFrame(wheel_speed = 10,
imu_angle = 5, right = 100, left = 100, rear = 100, drive_mode = 1), one reader
cycle (any fuel of at least 2) makes one sync, one decode and exactly one
publication, and empties the buffer. The published message carries the six
values in wire order in imu_angle, wheel_speed, right_TOF, left_TOF, rear_TOF,
drive_mode_1: imu_angle = 10 and wheel_speed = 5, the other four as sent. -/
theorem reader_cycle_end_to_end (fuel : Nat) (sensors : Teensy_Sensors) :
    main_loop_iteration (fuel + 2)
        ([0x00, 0x83] ++ encode_sensor_frame ⟨10, 5, 100, 100, 100, 1⟩) sensors
      = some { serial := [],
               sensor_data :=
                 { imu_angle := 10, wheel_speed := 5, right_TOF := 100, left_TOF := 100,
                   rear_TOF := 100, drive_mode_1 := 1, drive_mode_2 := sensors.drive_mode_2 },
               waiting_bytes := 12,
               trace := [Event.sync 14, Event.decode 12,
                 Event.publish
                   { imu_angle := 10, wheel_speed := 5, right_TOF := 100, left_TOF := 100,
                     rear_TOF := 100, drive_mode_1 := 1,
                     drive_mode_2 := sensors.drive_mode_2 }] } :=
  main_loop_single_record fuel sensors

/-- Counterexample to C16 as stated: for no fuel does the reader cycle on the
scenario's buffer publish a message that holds the frame wheel_speed = 10,
imu_angle = 5, ... field by field (the one message published has
wheel_speed = 5 and imu_angle = 10). -/
theorem reader_cycle_end_to_end_fields_exchanged :
    ¬ ∃ fuel : Nat, ∃ st : LoopState,
      main_loop_iteration fuel
          ([0x00, 0x83] ++ encode_sensor_frame ⟨10, 5, 100, 100, 100, 1⟩) ⟨0, 0, 0, 0, 0, 0, 0⟩
        = some st ∧
      ∃ s : Teensy_Sensors, Event.publish s ∈ st.trace ∧ s.Holds ⟨10, 5, 100, 100, 100, 1⟩ := by
  rintro ⟨fuel, st, h, s, hs, hholds⟩
  match fuel, h with
  | 0, h =>
    have hn : main_loop_iteration 0
        ([0x00, 0x83] ++ encode_sensor_frame ⟨10, 5, 100, 100, 100, 1⟩) ⟨0, 0, 0, 0, 0, 0, 0⟩
        = none := by decide
    rw [hn] at h
    exact Option.noConfusion h
  | 1, h =>
    have hn : main_loop_iteration 1
        ([0x00, 0x83] ++ encode_sensor_frame ⟨10, 5, 100, 100, 100, 1⟩) ⟨0, 0, 0, 0, 0, 0, 0⟩
        = none := by decide
    rw [hn] at h
    exact Option.noConfusion h
  | k + 2, h =>
    rw [main_loop_single_record] at h
    have hst := Option.some.inj h
    subst hst
    simp only [List.mem_cons, List.mem_singleton, reduceCtorEq, false_or, Event.publish.injEq,
      List.not_mem_nil, or_false] at hs
    subst hs
    revert hholds
    decide

theorem toInt16_length_ge (serial : List Byte) (n : Int) (hn : 0 ≤ n)
    (h : toInt16 (serialDataAvail serial) ≥ n) : n ≤ serialDataAvail serial := by
  have hlen : (0 : Int) ≤ serialDataAvail serial := by
    unfold serialDataAvail; exact Int.natCast_nonneg _
  revert h
  generalize serialDataAvail serial = m at hlen ⊢
  unfold toInt16
  omega

theorem main_for_loop_decode_avail (sync_fuel : Nat) :
    ∀ (fuel : Nat) (i : Int) (st st' : LoopState),
      main_for_loop sync_fuel fuel i st = some st' →
      (∀ a, Event.decode a ∈ st.trace → 12 ≤ a) →
      ∀ a, Event.decode a ∈ st'.trace → 12 ≤ a := by
  intro fuel
  induction fuel with
  | zero => intro i st st' h; simp [main_for_loop] at h
  | succ fuel ih =>
    intro i st st' h hinv
    rw [main_for_loop] at h
    by_cases hi : i < Int.tdiv st.waiting_bytes SENSOR_DATA_SIZE_W_SYNC
    · simp only [hi, if_true] at h
      cases hsync : pi_sync sync_fuel st.serial with
      | none => simp [hsync] at h
      | some serial =>
        simp only [hsync] at h
        by_cases hge : toInt16 (serialDataAvail serial) ≥ SENSOR_DATA_SIZE
        · simp only [hge, if_true] at h
          cases hread : read_from_teensy serial st.sensor_data with
          | none => simp [hread] at h
          | some r =>
            obtain ⟨sensor_data, serial'⟩ := r
            simp only [hread] at h
            refine ih _ _ _ h ?_
            intro a ha
            simp only [List.mem_append, List.mem_singleton, reduceCtorEq, or_false,
              Event.decode.injEq] at ha
            rcases ha with ha | ha
            · exact hinv a ha
            · subst ha
              exact toInt16_length_ge serial 12 (by decide) hge
        · simp only [hge, if_false] at h
          refine ih _ _ _ h ?_
          intro a ha
          simp only [List.mem_append, List.mem_singleton, reduceCtorEq, or_false] at ha
          exact hinv a ha
    · simp only [hi, if_false] at h
      have hst := Option.some.inj h
      subst hst
      exact hinv

theorem main_for_loop_short_remainder (sync_fuel fuel : Nat) (i : Int) (st : LoopState)
    (serial : List Byte)
    (hi : i < Int.tdiv st.waiting_bytes SENSOR_DATA_SIZE_W_SYNC)
    (hsync : pi_sync sync_fuel st.serial = some serial)
    (hshort : serialDataAvail serial < 12) :
    main_for_loop sync_fuel (fuel + 1) i st
      = main_for_loop sync_fuel fuel (i + 1)
          ⟨serial, st.sensor_data, serialDataAvail serial,
            st.trace ++ [Event.sync (serialDataAvail st.serial)]⟩ := by
  have hlen : (0 : Int) ≤ serialDataAvail serial := by
    unfold serialDataAvail; exact Int.natCast_nonneg _
  have h16 : toInt16 (serialDataAvail serial) = serialDataAvail serial :=
    toInt16_of_inRange _ (by omega) (by omega)
  have hlt : ¬ (serialDataAvail serial ≥ SENSOR_DATA_SIZE) := by
    unfold SENSOR_DATA_SIZE; omega
  rw [main_for_loop]
  simp only [hi, if_true, hsync, h16, hlt, if_false]

/-- C19. In one pass of the main loop, on any buffer and with any held frame,
every call of `read_from_teensy` is made with at least 12 bytes buffered at that
moment; and in a pass of the `for` loop where fewer than 12 bytes remain after
`pi_sync`, `read_from_teensy` is not called and the loop goes on with the held
sensor frame (and the buffer) as they were after the sync. -/
theorem short_read_guard :
    (∀ (fuel : Nat) (serial : List Byte) (sensors : Teensy_Sensors) (st : LoopState),
      main_loop_iteration fuel serial sensors = some st →
      ∀ a, Event.decode a ∈ st.trace → 12 ≤ a) ∧
    (∀ (sync_fuel fuel : Nat) (i : Int) (st : LoopState) (serial : List Byte),
      i < Int.tdiv st.waiting_bytes SENSOR_DATA_SIZE_W_SYNC →
      pi_sync sync_fuel st.serial = some serial →
      serialDataAvail serial < 12 →
      main_for_loop sync_fuel (fuel + 1) i st
        = main_for_loop sync_fuel fuel (i + 1)
            ⟨serial, st.sensor_data, serialDataAvail serial,
              st.trace ++ [Event.sync (serialDataAvail st.serial)]⟩) := by
  refine ⟨?_, main_for_loop_short_remainder⟩
  intro fuel serial sensors st h a ha
  simp only [main_loop_iteration] at h
  split at h
  · exact Option.noConfusion h
  · rename_i st0 hloop
    have hst := Option.some.inj h
    subst hst
    simp only [List.mem_append, List.mem_singleton, reduceCtorEq, or_false] at ha
    exact main_for_loop_decode_avail fuel fuel 0 _ st0 hloop (by simp) a ha

/-- Witness for C19: a buffer of two noise bytes, the sentinel and ten more
bytes. The cycle is entered (14 bytes), ten bytes remain after the sync, no
decode is made and the held frame is published as it was. -/
theorem short_read_guard_witness :
    main_loop_iteration 3 [1, 2, 0x00, 0x83, 1, 0, 2, 0, 3, 0, 4, 0, 5, 0] ⟨7, 7, 7, 7, 7, 7, 7⟩
        = some ⟨[1, 0, 2, 0, 3, 0, 4, 0, 5, 0], ⟨7, 7, 7, 7, 7, 7, 7⟩, 10,
            [Event.sync 14, Event.publish ⟨7, 7, 7, 7, 7, 7, 7⟩]⟩ ∧
    (∀ a, Event.decode a ∈ [Event.sync 14, Event.publish ⟨7, 7, 7, 7, 7, 7, 7⟩] → 12 ≤ a) ∧
    main_for_loop 3 (2 + 1) 0
        ⟨[1, 2, 0x00, 0x83, 1, 0, 2, 0, 3, 0, 4, 0, 5, 0], ⟨7, 7, 7, 7, 7, 7, 7⟩, 14, []⟩
      = main_for_loop 3 2 (0 + 1)
          ⟨[1, 0, 2, 0, 3, 0, 4, 0, 5, 0], ⟨7, 7, 7, 7, 7, 7, 7⟩,
            serialDataAvail ([1, 0, 2, 0, 3, 0, 4, 0, 5, 0] : List Byte),
            [] ++ [Event.sync (serialDataAvail
              ([1, 2, 0x00, 0x83, 1, 0, 2, 0, 3, 0, 4, 0, 5, 0] : List Byte))]⟩ :=
  ⟨by decide,
   short_read_guard.1 3 [1, 2, 0x00, 0x83, 1, 0, 2, 0, 3, 0, 4, 0, 5, 0] ⟨7, 7, 7, 7, 7, 7, 7⟩
     ⟨[1, 0, 2, 0, 3, 0, 4, 0, 5, 0], ⟨7, 7, 7, 7, 7, 7, 7⟩, 10,
       [Event.sync 14, Event.publish ⟨7, 7, 7, 7, 7, 7, 7⟩]⟩ (by decide),
   short_read_guard.2 3 2 0
     ⟨[1, 2, 0x00, 0x83, 1, 0, 2, 0, 3, 0, 4, 0, 5, 0], ⟨7, 7, 7, 7, 7, 7, 7⟩, 14, []⟩
     [1, 0, 2, 0, 3, 0, 4, 0, 5, 0] (by decide) (by decide) (by decide)⟩

/-! ## The Teensy sender -/

theorem teensy_serial_loop_fn_transmit (padding : Byte × Byte) (availableForWrite : Nat)
    (system_data : system_data_t) (tx : List Byte)
    (hupdated : system_data.updated = true) (hwritable : availableForWrite ≠ 0) :
    teensy_serial_loop_fn padding availableForWrite system_data tx []
      = some ({ system_data with updated := false },
          tx ++ sensor_data_bytes padding system_data.sensors, []) := by
  simp [teensy_serial_loop_fn, hupdated, hwritable, teensy_read_cycles, READ_CYCLES,
    serialDataAvail]

theorem sensor_data_bytes_example (padding : Byte × Byte) :
    sensor_data_bytes padding ⟨10, 0x40A00000, 100, 100⟩
      = [10, 0, padding.1, padding.2, 0x00, 0x00, 0xA0, 0x40, 100, 0, 0, 0, 100, 0, 0, 0] := by
  have a0 : int16_byte 10 0 = 10 := by decide
  have a1 : int16_byte 10 1 = 0 := by decide
  have f0 : int32_byte ((0x40A00000 : Nat) : Int) 0 = 0x00 := by decide
  have f1 : int32_byte ((0x40A00000 : Nat) : Int) 1 = 0x00 := by decide
  have f2 : int32_byte ((0x40A00000 : Nat) : Int) 2 = 0xA0 := by decide
  have f3 : int32_byte ((0x40A00000 : Nat) : Int) 3 = 0x40 := by decide
  have r0 : int32_byte 100 0 = 100 := by decide
  have r1 : int32_byte 100 1 = 0 := by decide
  have r2 : int32_byte 100 2 = 0 := by decide
  have r3 : int32_byte 100 3 = 0 := by decide
  simp only [sensor_data_bytes, a0, a1, f0, f1, f2, f3, r0, r1, r2, r3]

/-- C17 (evaluation at the failing input). The Teensy holds the sensor record
wheel_speed = 10, imu_angle = 5.0 (bit pattern 0x40A00000), right_URF = 100,
left_URF = 100, marked updated, and the link is writable. Whatever the two
padding bytes, `teensy_serial_loop_fn` writes the 16 bytes of the struct and
`read_from_teensy` on them returns imu_angle = 10 (the sender's wheel_speed),
wheel_speed = the padding, right_TOF = 0 and left_TOF = 16544 (the two halves of
the float), rear_TOF = 100, drive_mode_1 = 0, and leaves four bytes unread. -/
theorem teensy_sender_pi_reader_mismatch (padding : Byte × Byte) (sensors : Teensy_Sensors) :
    (teensy_serial_loop_fn padding 1 ⟨true, 0, ⟨10, 0x40A00000, 100, 100⟩, ⟨0, 0, 0⟩⟩ [] []).bind
        (fun r => read_from_teensy r.2.1 sensors)
      = some ({ imu_angle := 10,
                wheel_speed := toInt16 ((padding.1.val : Int) + 256 * (padding.2.val : Int)),
                right_TOF := 0,
                left_TOF := 16544,
                rear_TOF := 100,
                drive_mode_1 := 0,
                drive_mode_2 := sensors.drive_mode_2 }, [100, 0, 0, 0]) := by
  have v10 : toInt16 (((10 : Byte).val : Int) + 256 * ((0 : Byte).val : Int)) = 10 := by decide
  have v0 : toInt16 (((0x00 : Byte).val : Int) + 256 * ((0x00 : Byte).val : Int)) = 0 := by
    decide
  have vf : toInt16 (((0xA0 : Byte).val : Int) + 256 * ((0x40 : Byte).val : Int)) = 16544 := by
    decide
  have v100 : toInt16 (((100 : Byte).val : Int) + 256 * ((0 : Byte).val : Int)) = 100 := by
    decide
  rw [teensy_serial_loop_fn_transmit padding 1 _ [] rfl (by decide)]
  simp only [Option.some_bind, List.nil_append, sensor_data_bytes_example,
    read_from_teensy_twelve, v10, v0, vf, v100]

/-- C18 (evaluation at the failing input). With the sensor record
wheel_speed = 10, imu_angle = 5.0, right_URF = 100, left_URF = 100 marked
updated and the link writable, the bytes `teensy_serial_loop_fn` writes to the
link are the 16 bytes of the struct alone: they begin with 0x0A, 0x00, the
wheel speed, and no sentinel 0x00, 0x83 is written before the record. -/
theorem teensy_sender_writes_no_sentinel (padding : Byte × Byte) :
    teensy_serial_loop_fn padding 1 ⟨true, 0, ⟨10, 0x40A00000, 100, 100⟩, ⟨0, 0, 0⟩⟩ [] []
      = some (⟨false, 0, ⟨10, 0x40A00000, 100, 100⟩, ⟨0, 0, 0⟩⟩,
          [0x0A, 0x00, padding.1, padding.2, 0x00, 0x00, 0xA0, 0x40,
           100, 0, 0, 0, 100, 0, 0, 0], []) := by
  rw [teensy_serial_loop_fn_transmit padding 1 _ [] rfl (by decide)]
  simp only [List.nil_append, sensor_data_bytes_example]

/-! ## `stop_motor`: lower side of the accumulator and the return value -/

/-- C21. The accumulator is not clamped from below: with wheel_speed = 100 > 0
and the accepted time_step = 20 a call from error_sum = 0 leaves
error_sum = -2000, below -1000; with wheel_speed = 256 and time_step = 128 it
leaves -32768, the least int16 value; and from an accumulator within the int16
range no call leaves a value below -32768. -/
theorem error_sum_no_negative_clamp :
    (∃ wheel_speed time_step : Int, 0 < wheel_speed ∧ 0 < time_step ∧
      time_step < MAX_TIME_STEP ∧ (stop_motor wheel_speed time_step 0).2 < -SAT_ERROR) ∧
    (stop_motor 100 20 0).2 = -2000 ∧
    (stop_motor 256 128 0).2 = -32768 ∧
    (∀ wheel_speed time_step error_sum : Int, -32768 ≤ error_sum →
      -32768 ≤ (stop_motor wheel_speed time_step error_sum).2) := by
  have h1 : (stop_motor 100 20 0).2 = -2000 := by rw [stop_motor_snd]; decide
  refine ⟨⟨100, 20, by decide, by decide, by decide, ?_⟩, h1, ?_, ?_⟩
  · rw [h1]; decide
  · rw [stop_motor_snd]; decide
  · intro wheel_speed time_step error_sum h
    rw [stop_motor_snd]
    have hr := toInt16_range (error_sum + time_step * toInt16 (0 - wheel_speed))
    split
    · split <;> omega
    · exact h

/-- Witness for C21: from the accumulator 0 the call with wheel_speed = 256 and
time_step = 128 stays within the int16 range. -/
theorem error_sum_no_negative_clamp_witness : -32768 ≤ (stop_motor 256 128 0).2 :=
  error_sum_no_negative_clamp.2.2.2 256 128 0 (by decide)

/-- C22. For every wheel_speed, every time_step and every accumulator state
(all int16 values in particular), `stop_motor` returns 90, which is MOTOR_STOP:
error_range is 1050 and the factor MOTOR_RANGE / error_range is the integer
quotient 180 / 1050 = 0. -/
theorem stop_motor_returns_motor_stop (wheel_speed time_step error_sum : Int) :
    (stop_motor wheel_speed time_step error_sum).1 = 90 ∧
    MOTOR_STOP = 90 ∧
    truncToInt (KI * (SAT_ERROR : ℚ) + ((KP * WHEEL_SPEED_RANGE : Int) : ℚ)) = 1050 ∧
    Int.tdiv MOTOR_RANGE 1050 = 0 :=
  ⟨stop_motor_fst wheel_speed time_step error_sum, rfl, error_range_eq, by decide⟩

/-! ## `read_from_pi` -/

theorem readBytes_two (c0 c1 : Byte) (rest : List Byte) :
    readBytes (c0 :: c1 :: rest) 2 = some ([c0, c1], rest) := by
  simp [readBytes]

/-- C23. For every six input bytes c0..c5 (followed by anything),
`read_from_pi` consumes exactly the six bytes and sets motor_output = c0,
steer_output = c2, fifth_output = c4; every decoded field lies in [0, 255], and
the result is the same whatever bytes stand in the places of c1, c3, c5. -/
theorem read_from_pi_keeps_first_bytes (c0 c1 c2 c3 c4 c5 : Byte) (rest : List Byte)
    (actuators : actuator_data_t) :
    read_from_pi (c0 :: c1 :: c2 :: c3 :: c4 :: c5 :: rest) actuators
      = some ({ motor_output := (c0.val : Int), steer_output := (c2.val : Int),
                fifth_output := (c4.val : Int) }, rest) ∧
    ((0 ≤ (c0.val : Int) ∧ (c0.val : Int) ≤ 255) ∧ (0 ≤ (c2.val : Int) ∧ (c2.val : Int) ≤ 255) ∧
      (0 ≤ (c4.val : Int) ∧ (c4.val : Int) ≤ 255)) ∧
    (∀ d1 d3 d5 : Byte,
      read_from_pi (c0 :: d1 :: c2 :: d3 :: c4 :: d5 :: rest) actuators
        = read_from_pi (c0 :: c1 :: c2 :: c3 :: c4 :: c5 :: rest) actuators) := by
  have h : ∀ d1 d3 d5 : Byte,
      read_from_pi (c0 :: d1 :: c2 :: d3 :: c4 :: d5 :: rest) actuators
        = some ({ motor_output := (c0.val : Int), steer_output := (c2.val : Int),
                  fifth_output := (c4.val : Int) }, rest) := by
    intro d1 d3 d5
    simp [read_from_pi, readBytes_two]
  have b0 := c0.isLt
  have b2 := c2.isLt
  have b4 := c4.isLt
  refine ⟨h c1 c3 c5, by omega, ?_⟩
  intro d1 d3 d5
  rw [h d1 d3 d5, h c1 c3 c5]

/-! ## `wheel_speed_loop_fn` -/

/-- C25 (evaluation at the failing input). With 1000 microseconds elapsed since
the previous call, `wheel_speed_loop_fn` stores speed = 1000 when phase B reads
HIGH and speed = -1000 when it reads LOW, and returns 0 in both cases; it
returns 0 for every reading, every time and every state of its globals. -/
theorem wheel_speed_loop_fn_returns_zero :
    (∀ (phaseB_val : Int) (time prev_time : Nat) (speed : ℚ),
      (wheel_speed_loop_fn phaseB_val time prev_time speed).1 = 0) ∧
    wheel_speed_loop_fn HIGH 1000 0 0 = (0, 1000, 1000) ∧
    wheel_speed_loop_fn LOW 1000 0 0 = (0, 1000, -1000) := by
  refine ⟨fun _ _ _ _ => rfl, ?_, ?_⟩
  · simp only [wheel_speed_loop_fn, if_true]
    norm_num
  · have hl : ¬ (LOW = HIGH) := by decide
    simp only [wheel_speed_loop_fn, hl, if_false, if_true]
    norm_num

/-! ## The sync precondition in the reader cycle -/

theorem lt_tdiv_fourteen (k w : Int) (hk : 0 ≤ k)
    (h : k < Int.tdiv w SENSOR_DATA_SIZE_W_SYNC) : 14 * (k + 1) ≤ w := by
  unfold SENSOR_DATA_SIZE_W_SYNC at h
  by_cases hw : 0 ≤ w
  · rw [Int.tdiv_eq_ediv hw (by decide)] at h
    omega
  · have h1 : Int.tdiv w 14 = -(Int.tdiv (-w) 14) := by
      have := Int.neg_tdiv (-w) 14
      rwa [neg_neg] at this
    have h2 : 0 ≤ Int.tdiv (-w) 14 := Int.tdiv_nonneg (by omega) (by decide)
    omega

theorem read_from_teensy_of_length (serial : List Byte) (sensors : Teensy_Sensors)
    (h : 12 ≤ serialDataAvail serial) :
    ∃ sensor_data serial', read_from_teensy serial sensors = some (sensor_data, serial') ∧
      serialDataAvail serial' + 12 = serialDataAvail serial := by
  unfold serialDataAvail at h
  have hlen : 12 ≤ serial.length := by omega
  match serial, hlen with
  | b0 :: b1 :: b2 :: b3 :: b4 :: b5 :: b6 :: b7 :: b8 :: b9 :: b10 :: b11 :: rest, _ =>
    refine ⟨_, rest, read_from_teensy_twelve b0 b1 b2 b3 b4 b5 b6 b7 b8 b9 b10 b11 rest sensors, ?_⟩
    simp only [serialDataAvail, List.length_cons]
    push_cast
    ring

theorem main_for_loop_pass (sync_fuel fuel : Nat) (i : Int) (st : LoopState)
    (serial : List Byte) (hready : SyncReady i st)
    (hi : i < Int.tdiv st.waiting_bytes SENSOR_DATA_SIZE_W_SYNC)
    (hsync : pi_sync sync_fuel st.serial = some serial) :
    ∃ st', main_for_loop sync_fuel (fuel + 1) i st = main_for_loop sync_fuel fuel (i + 1) st' ∧
      SyncReady (i + 1) st' ∧
      ∀ a, Event.sync a ∈ st'.trace → Event.sync a ∈ st.trace ∨ a = serialDataAvail st.serial := by
  have hi0 : 0 ≤ i := hready.1
  by_cases hge : toInt16 (serialDataAvail serial) ≥ SENSOR_DATA_SIZE
  · have hlen : 12 ≤ serialDataAvail serial := toInt16_length_ge serial 12 (by decide) hge
    obtain ⟨sensor_data, serial', hread, hl⟩ := read_from_teensy_of_length serial st.sensor_data hlen
    refine ⟨⟨serial', sensor_data, toInt16 (serialDataAvail serial),
      st.trace ++ [Event.sync (serialDataAvail st.serial)]
        ++ [Event.decode (serialDataAvail serial)]⟩, ?_, ⟨by omega, ?_⟩, ?_⟩
    · rw [main_for_loop]
      simp only [hi, if_true, hsync, hge, hread]
    · intro hnext
      have h28 := lt_tdiv_fourteen (i + 1) _ (by omega) hnext
      change 14 * (i + 1 + 1) ≤ toInt16 (serialDataAvail serial) at h28
      have h28' : 28 ≤ serialDataAvail serial :=
        toInt16_length_ge serial 28 (by decide) (by
          show toInt16 (serialDataAvail serial) ≥ 28
          omega)
      show 14 ≤ serialDataAvail serial'
      omega
    · intro a ha
      simp only [List.mem_append, List.mem_singleton, reduceCtorEq, or_false,
        Event.sync.injEq] at ha
      exact ha
  · refine ⟨⟨serial, st.sensor_data, toInt16 (serialDataAvail serial),
      st.trace ++ [Event.sync (serialDataAvail st.serial)]⟩, ?_, ⟨by omega, ?_⟩, ?_⟩
    · rw [main_for_loop]
      simp only [hi, if_true, hsync, hge, if_false]
    · intro hnext
      have h28 := lt_tdiv_fourteen (i + 1) _ (by omega) hnext
      have : toInt16 (serialDataAvail serial) < 12 := by
        unfold SENSOR_DATA_SIZE at hge; omega
      change 14 * (i + 1 + 1) ≤ toInt16 (serialDataAvail serial) at h28
      omega
    · intro a ha
      simp only [List.mem_append, List.mem_singleton, Event.sync.injEq] at ha
      exact ha

theorem main_for_loop_sync_avail (sync_fuel : Nat) :
    ∀ (fuel : Nat) (i : Int) (st st' : LoopState),
      main_for_loop sync_fuel fuel i st = some st' →
      SyncReady i st →
      (∀ a, Event.sync a ∈ st.trace → 14 ≤ a) →
      ∀ a, Event.sync a ∈ st'.trace → 14 ≤ a := by
  intro fuel
  induction fuel with
  | zero => intro i st st' h; simp [main_for_loop] at h
  | succ fuel ih =>
    intro i st st' h hready hinv
    by_cases hi : i < Int.tdiv st.waiting_bytes SENSOR_DATA_SIZE_W_SYNC
    · cases hsync : pi_sync sync_fuel st.serial with
      | none =>
        rw [main_for_loop] at h
        simp [hi, hsync] at h
      | some serial =>
        obtain ⟨st1, heq, hready1, htrace⟩ :=
          main_for_loop_pass sync_fuel fuel i st serial hready hi hsync
        rw [heq] at h
        refine ih _ _ _ h hready1 ?_
        intro a ha
        rcases htrace a ha with hold | hnew
        · exact hinv a hold
        · rw [hnew]; exact hready.2 hi
    · rw [main_for_loop] at h
      simp only [hi, if_false] at h
      have hst := Option.some.inj h
      subst hst
      exact hinv

theorem syncReady_initial (serial : List Byte) (sensors : Teensy_Sensors) :
    SyncReady 0 ⟨serial, sensors, toInt16 (serialDataAvail serial), []⟩ := by
  refine ⟨le_refl 0, ?_⟩
  intro h
  have h14 := lt_tdiv_fourteen 0 _ (le_refl 0) h
  exact toInt16_length_ge serial 14 (by decide) (by
    show toInt16 (serialDataAvail serial) ≥ 14
    change 14 * (0 + 1) ≤ toInt16 (serialDataAvail serial) at h14
    omega)

/-- C24. For every buffer content, with no byte arriving or leaving other than
through the cycle's own reads: (1) in every pass of the main loop that
completes, each call of `pi_sync`, in the first and in later passes of the `for`
loop, is made with at least 14 bytes buffered; (2) the loop starts in a state
that is `SyncReady` (if the loop test passes, at least 14 bytes are buffered),
and (3) every pass of the `for` loop whose `pi_sync` returns hands a `SyncReady`
state to the next pass, so that a call of `pi_sync` that never returns is made
with at least 14 bytes buffered as well. -/
theorem sync_precondition :
    (∀ (fuel : Nat) (serial : List Byte) (sensors : Teensy_Sensors) (st : LoopState),
      main_loop_iteration fuel serial sensors = some st →
      ∀ a, Event.sync a ∈ st.trace → 14 ≤ a) ∧
    (∀ (serial : List Byte) (sensors : Teensy_Sensors),
      SyncReady 0 ⟨serial, sensors, toInt16 (serialDataAvail serial), []⟩) ∧
    (∀ (sync_fuel fuel : Nat) (i : Int) (st : LoopState) (serial : List Byte),
      SyncReady i st →
      i < Int.tdiv st.waiting_bytes SENSOR_DATA_SIZE_W_SYNC →
      pi_sync sync_fuel st.serial = some serial →
      ∃ st', main_for_loop sync_fuel (fuel + 1) i st
          = main_for_loop sync_fuel fuel (i + 1) st' ∧ SyncReady (i + 1) st') := by
  refine ⟨?_, syncReady_initial, ?_⟩
  · intro fuel serial sensors st h a ha
    simp only [main_loop_iteration] at h
    cases hloop : main_for_loop fuel fuel 0
        ⟨serial, sensors, toInt16 (serialDataAvail serial), []⟩ with
    | none => simp [hloop] at h
    | some st0 =>
      simp only [hloop] at h
      have hst := Option.some.inj h
      subst hst
      simp only [List.mem_append, List.mem_singleton, reduceCtorEq, or_false] at ha
      exact main_for_loop_sync_avail fuel fuel 0 _ st0 hloop (syncReady_initial serial sensors)
        (by simp) a ha
  · intro sync_fuel fuel i st serial hready hi hsync
    obtain ⟨st', heq, hready', _⟩ := main_for_loop_pass sync_fuel fuel i st serial hready hi hsync
    exact ⟨st', heq, hready'⟩

/-- Witness for C24: the cycle on a buffer of two framed records completes
with one call of `pi_sync`, made with 28 bytes buffered. -/
theorem sync_precondition_witness :
    ∀ a, Event.sync a ∈
        [Event.sync 28, Event.decode 26,
          Event.publish
            { imu_angle := 1, wheel_speed := 2, right_TOF := 3, left_TOF := 4,
              rear_TOF := 5, drive_mode_1 := 6, drive_mode_2 := 0 }] → 14 ≤ a :=
  sync_precondition.1 2
    [0x00, 0x83, 1, 0, 2, 0, 3, 0, 4, 0, 5, 0, 6, 0,
     0x00, 0x83, 11, 0, 12, 0, 13, 0, 14, 0, 15, 0, 16, 0]
    ⟨0, 0, 0, 0, 0, 0, 0⟩
    ⟨[0x00, 0x83, 11, 0, 12, 0, 13, 0, 14, 0, 15, 0, 16, 0], ⟨1, 2, 3, 4, 5, 6, 0⟩, 26,
      [Event.sync 28, Event.decode 26, Event.publish ⟨1, 2, 3, 4, 5, 6, 0⟩]⟩
    (by decide)

end Daimtronics
